import Mathlib

/-!
# ATP firmware (KL25Z): serial command receiver, LCD status display, echo

A shallow embedding of `src/main.c`.

* Memory-mapped registers are fields of `Regs`; every register access the
  program makes is recorded, in program order, as an `Event` in the `log` of
  the machine state.  Every store to the volatile variable `receiveFlag`, the
  one variable that the handler and the main loop both write, is recorded in
  the same log, so the log shows where the flag is set and cleared among the
  register accesses.  Reads of program variables are not recorded.
* Values the hardware supplies are read from input tapes: `pdirIn` holds the
  values the successive reads of `PTD->PDIR` return, `s1In` the values the
  successive reads of `UART0->S1` return.  A polling loop that reaches the end
  of its tape has not finished within the supplied readings; the model then
  yields `none`.  An array access outside the array yields `none` as well.
* `char` values are raw bytes `0..255`; `int` values are integers.
-/

namespace ATP

/-! ## Constants of the source -/

/-- The macro `RS`, mask of PTA12. -/
def RS : Nat := 0x1000

/-- The macro `RW`, mask of PTA4. -/
def RW : Nat := 0x10

/-- The macro `EN`, mask of PTA5. -/
def EN : Nat := 0x20

/-- The constant `STANDARD_DATA_PACKET_SIZE`. -/
def STANDARD_DATA_PACKET_SIZE : Int := 4

/-! ## Registers and register accesses -/

/-- Accesses to memory-mapped registers, calls of `delayMs` and stores to the
volatile variable `receiveFlag`, as they appear in the source. -/
inductive Event where
  /-- The assignment `SIM->SCGC5 |= mask`. -/
  | SIM_SCGC5_or (mask : Nat)
  /-- The assignment `PORTA->PCR[i] = v`. -/
  | PORTA_PCR (i v : Nat)
  /-- The assignment `PORTD->PCR[i] = v`. -/
  | PORTD_PCR (i v : Nat)
  /-- The assignment `PTA->PDDR |= mask`. -/
  | PTA_PDDR_or (mask : Nat)
  /-- The assignment `PTA->PSOR = mask`: sets the masked output pins of port A. -/
  | PTA_PSOR (mask : Nat)
  /-- The assignment `PTA->PCOR = mask`: clears the masked output pins of port A. -/
  | PTA_PCOR (mask : Nat)
  /-- The assignment `PTD->PDDR = v`. -/
  | PTD_PDDR (v : Nat)
  /-- The assignment `PTD->PDOR = v`. -/
  | PTD_PDOR (v : Nat)
  /-- A read of `PTD->PDIR` that returned `v`. -/
  | PTD_PDIR_read (v : Nat)
  /-- A read of `UART0->S1` that returned `v`. -/
  | UART0_S1_read (v : Nat)
  /-- A read of `UART0->D` that returned `v`. -/
  | UART0_D_read (v : Nat)
  /-- The assignment `UART0->D = v`. -/
  | UART0_D_write (v : Nat)
  /-- A call `delayMs(n)`. -/
  | delayMs (n : Int)
  /-- The assignment `receiveFlag = v`. -/
  | receiveFlag_write (v : Int)
  deriving DecidableEq

/-- The registers the display driver writes. -/
structure Regs where
  /-- The register `SIM->SCGC5`. -/
  scgc5 : Nat
  /-- The array `PORTA->PCR`. -/
  portaPCR : List Nat
  /-- The array `PORTD->PCR`. -/
  portdPCR : List Nat
  /-- The register `PTA->PDDR`. -/
  ptaPDDR : Nat
  /-- The output latch of port A, written through `PTA->PSOR` and `PTA->PCOR`. -/
  ptaPDOR : Nat
  /-- The register `PTD->PDDR`. -/
  ptdPDDR : Nat
  /-- The register `PTD->PDOR`. -/
  ptdPDOR : Nat
  deriving DecidableEq

/-- Effect of one register access on the registers (32-bit registers). -/
def applyEvent (r : Regs) : Event → Regs
  | Event.SIM_SCGC5_or m => { r with scgc5 := r.scgc5 ||| m }
  | Event.PORTA_PCR i v => { r with portaPCR := r.portaPCR.set i v }
  | Event.PORTD_PCR i v => { r with portdPCR := r.portdPCR.set i v }
  | Event.PTA_PDDR_or m => { r with ptaPDDR := r.ptaPDDR ||| m }
  | Event.PTA_PSOR m => { r with ptaPDOR := r.ptaPDOR ||| m }
  | Event.PTA_PCOR m => { r with ptaPDOR := r.ptaPDOR &&& (0xFFFFFFFF ^^^ m) }
  | Event.PTD_PDDR v => { r with ptdPDDR := v }
  | Event.PTD_PDOR v => { r with ptdPDOR := v }
  | Event.PTD_PDIR_read _ => r
  | Event.UART0_S1_read _ => r
  | Event.UART0_D_read _ => r
  | Event.UART0_D_write _ => r
  | Event.delayMs _ => r
  | Event.receiveFlag_write _ => r

/-- Registers after a sequence of accesses. -/
def replay (r : Regs) (tr : List Event) : Regs :=
  tr.foldl applyEvent r

/-! ## Machine state -/

/-- The program's variables, the registers, the log of accesses made so far and
the values the hardware will supply to the coming reads. -/
structure State where
  /-- The variable `index`. -/
  index : Int
  /-- The array `incomingCommand`. -/
  incomingCommand : List Nat
  /-- The variable `receiveFlag`. -/
  receiveFlag : Int
  /-- The registers. -/
  regs : Regs
  /-- The register accesses made so far, oldest first. -/
  log : List Event
  /-- The values the coming reads of `PTD->PDIR` return. -/
  pdirIn : List Nat
  /-- The values the coming reads of `UART0->S1` return. -/
  s1In : List Nat
  deriving DecidableEq

/-- Perform one register write (or delay call): update the registers and
append the access to the log. -/
def emit (e : Event) (s : State) : State :=
  { s with regs := applyEvent s.regs e, log := s.log ++ [e] }

/-- The function `delayMs`: two nested empty counting loops; it accesses no
register and no variable of the program. -/
def delayMs (n : Int) (s : State) : State :=
  emit (Event.delayMs n) s

/-- A read of `PTD->PDIR`: it returns `v`, the next value of the tape, and
leaves `rest`. -/
def read_PDIR (v : Nat) (rest : List Nat) (s : State) : State :=
  { emit (Event.PTD_PDIR_read v) s with pdirIn := rest }

/-- A read of `UART0->S1`: it returns `v`, the next value of the tape, and
leaves `rest`. -/
def read_S1 (v : Nat) (rest : List Nat) (s : State) : State :=
  { emit (Event.UART0_S1_read v) s with s1In := rest }

/-! ## Serial receive -/

/-- The function `UART0_IRQHandler`, entered when the byte `d` has arrived in
`UART0->D`. -/
def UART0_IRQHandler (d : Nat) (s : State) : Option State :=
  let c := d % 256
  let s := emit (Event.UART0_D_read d) s
  if 0 ≤ s.index ∧ s.index.toNat < s.incomingCommand.length then
    let s := { s with incomingCommand := s.incomingCommand.set s.index.toNat c }
    let s := { s with index := s.index + 1 }
    if s.index = STANDARD_DATA_PACKET_SIZE then
      let s := { s with index := 0 }
      some (emit (Event.receiveFlag_write 1) { s with receiveFlag := 1 })
    else
      some s
  else
    none

/-- Successive calls of `UART0_IRQHandler`, one per arriving byte. -/
def receiveBytes : List Nat → State → Option State
  | [], s => some s
  | d :: ds, s => (UART0_IRQHandler d s).bind (receiveBytes ds)

/-! ## Display driver -/

/-- The function `LCD_command_noWait`. -/
def LCD_command_noWait (command : Nat) (s : State) : State :=
  let s := emit (Event.PTA_PCOR (RS ||| RW)) s
  let s := emit (Event.PTD_PDOR (command % 256)) s
  let s := emit (Event.PTA_PSOR EN) s
  let s := delayMs 0 s
  emit (Event.PTA_PCOR EN) s

/-- The do-while loop of `LCD_ready`, run on the readings `PTD->PDIR` will
return: raise E, read the status, clear E, and repeat while the busy bit of
the status is set. -/
def LCD_ready_loop : List Nat → State → Option State
  | [], _ => none
  | v :: rest, s =>
    let s := emit (Event.PTA_PSOR EN) s
    let s := delayMs 0 s
    let status := v % 256
    let s := read_PDIR v rest s
    let s := emit (Event.PTA_PCOR EN) s
    let s := delayMs 0 s
    if status &&& 0x80 ≠ 0 then LCD_ready_loop rest s else some s

/-- The function `LCD_ready`. -/
def LCD_ready (s : State) : Option State :=
  let s := emit (Event.PTD_PDDR 0) s
  let s := emit (Event.PTA_PCOR RS) s
  let s := emit (Event.PTA_PSOR RW) s
  (LCD_ready_loop s.pdirIn s).map fun s =>
    let s := emit (Event.PTA_PCOR RW) s
    emit (Event.PTD_PDDR 0xFF) s

/-- The function `LCD_command`. -/
def LCD_command (command : Nat) (s : State) : Option State :=
  (LCD_ready s).map fun s =>
    let s := emit (Event.PTA_PCOR (RS ||| RW)) s
    let s := emit (Event.PTD_PDOR (command % 256)) s
    let s := emit (Event.PTA_PSOR EN) s
    let s := delayMs 0 s
    emit (Event.PTA_PCOR EN) s

/-- The function `LCD_data`. -/
def LCD_data (data : Nat) (s : State) : Option State :=
  (LCD_ready s).map fun s =>
    let s := emit (Event.PTA_PSOR RS) s
    let s := emit (Event.PTA_PCOR RW) s
    let s := emit (Event.PTD_PDOR (data % 256)) s
    let s := emit (Event.PTA_PSOR EN) s
    let s := delayMs 0 s
    emit (Event.PTA_PCOR EN) s

/-- The function `LCD_init`. -/
def LCD_init (s : State) : Option State :=
  let s := emit (Event.SIM_SCGC5_or 0x1000) s
  let s := emit (Event.PORTD_PCR 0 0x100) s
  let s := emit (Event.PORTD_PCR 1 0x100) s
  let s := emit (Event.PORTD_PCR 2 0x100) s
  let s := emit (Event.PORTD_PCR 3 0x100) s
  let s := emit (Event.PORTD_PCR 4 0x100) s
  let s := emit (Event.PORTD_PCR 5 0x100) s
  let s := emit (Event.PORTD_PCR 6 0x100) s
  let s := emit (Event.PORTD_PCR 7 0x100) s
  let s := emit (Event.PTD_PDDR 0xFF) s
  let s := emit (Event.SIM_SCGC5_or 0x0200) s
  let s := emit (Event.PORTA_PCR 12 0x100) s
  let s := emit (Event.PORTA_PCR 4 0x100) s
  let s := emit (Event.PORTA_PCR 5 0x100) s
  let s := emit (Event.PTA_PDDR_or 0x1030) s
  let s := delayMs 20 s
  let s := LCD_command_noWait 0x30 s
  let s := delayMs 5 s
  let s := LCD_command_noWait 0x30 s
  let s := delayMs 1 s
  let s := LCD_command_noWait 0x30 s
  (LCD_command 0x38 s).bind fun s =>
  (LCD_command 0x06 s).bind fun s =>
  (LCD_command 0x01 s).bind fun s =>
  LCD_command 0x0F s

/-- The for loop of `LCD_write_string`, with `k` iterations left and the loop
variable at `i`. -/
def LCD_write_string_loop (data : List Nat) : Nat → Nat → State → Option State
  | 0, _, s => some s
  | k + 1, i, s =>
    match data[i]? with
    | none => none
    | some c => (LCD_data c s).bind (LCD_write_string_loop data k (i + 1))

/-- The function `LCD_write_string`: the loop runs for `i = 0` while `i < len`. -/
def LCD_write_string (data : List Nat) (len : Int) (s : State) : Option State :=
  LCD_write_string_loop data len.toNat 0 s

/-- The while loop of `LCD_write_int`; the first argument bounds the number
of iterations. -/
def LCD_write_int_loop : Nat → Int → State → Option State
  | 0, data, s => if data > 0 then none else some s
  | fuel + 1, data, s =>
    if data > 0 then
      let c := (0x30 + data.tmod 10) % 256
      let data := data.tdiv 10
      (LCD_data c.toNat s).bind (LCD_write_int_loop fuel data)
    else
      some s

/-- The function `LCD_write_int`.  Every iteration with `data > 0` makes
`data` smaller, so `data` iterations are never exceeded. -/
def LCD_write_int (data : Int) (s : State) : Option State :=
  LCD_write_int_loop data.toNat data s

/-- The string literal `"Command:"` with its terminating zero. -/
def Command_label : List Nat :=
  [0x43, 0x6F, 0x6D, 0x6D, 0x61, 0x6E, 0x64, 0x3A, 0]

/-- The function `LCD_cmd`. -/
def LCD_cmd (s : State) : Option State :=
  (LCD_command 0x01 s).bind fun s =>
  (LCD_write_string Command_label 8 s).bind fun s =>
  (LCD_write_string s.incomingCommand STANDARD_DATA_PACKET_SIZE s).bind fun s =>
  LCD_command 0xC0 s

/-! ## Serial transmit and the dispatch loop -/

/-- The inner loop of `txData`, `while(!(UART0->S1 & 0x80)) {}`, run on the
readings `UART0->S1` will return. -/
def txData_wait : List Nat → State → Option State
  | [], _ => none
  | v :: rest, s =>
    let s := read_S1 v rest s
    if (v % 256) &&& 0x80 = 0 then txData_wait rest s else some s

/-- The outer loop of `txData`, with `k` iterations left and the loop variable
at `i`. -/
def txData_loop (data : List Nat) : Nat → Nat → State → Option State
  | 0, _, s => some s
  | k + 1, i, s =>
    (txData_wait s.s1In s).bind fun s =>
      match data[i]? with
      | none => none
      | some c => txData_loop data k (i + 1) (emit (Event.UART0_D_write (c % 256)) s)

/-- The function `txData`: the loop runs for `i = 0` while
`i < STANDARD_DATA_PACKET_SIZE`. -/
def txData (data : List Nat) (s : State) : Option State :=
  txData_loop data STANDARD_DATA_PACKET_SIZE.toNat 0 s

/-- One iteration of the `for(;;)` loop of `main`. -/
def main_iteration (s : State) : Option State :=
  if s.receiveFlag ≠ 0 then
    (LCD_cmd s).bind fun s =>
    (txData s.incomingCommand s).bind fun s =>
    some (emit (Event.receiveFlag_write 0) { s with receiveFlag := 0 })
  else
    some s

/-! ## What the peripherals see -/

/-- Level of the masked pin in an output latch. -/
def pinHigh (reg mask : Nat) : Bool :=
  (reg &&& mask) != 0

/-- A transfer latched by the LCD controller. -/
inductive LcdTxn where
  /-- A command byte written to the controller. -/
  | command (b : Nat)
  /-- A display-data byte written to the controller. -/
  | data (b : Nat)
  /-- A read of the status byte. -/
  | statusRead
  /-- A read of display data. -/
  | dataRead
  deriving DecidableEq

/-- Modelled from the spec: the LCD controller is a peripheral outside the
source.  The transfer selected by the control lines: read/write high is a
read, low a write of the byte on the data bus; register-select low addresses
the command/status register, high the display data. -/
def lcdLatch (r : Regs) : LcdTxn :=
  if pinHigh r.ptaPDOR RW then
    if pinHigh r.ptaPDOR RS then LcdTxn.dataRead else LcdTxn.statusRead
  else
    if pinHigh r.ptaPDOR RS then LcdTxn.data (r.ptdPDOR % 256)
    else LcdTxn.command (r.ptdPDOR % 256)

/-- Modelled from the spec: the LCD controller is a peripheral outside the
source.  The transfers the controller latches during a sequence of register
accesses that starts with registers `r`: one per enable pulse, taken when the
enable line goes from high to low. -/
def lcdView (r : Regs) : List Event → List LcdTxn
  | [] => []
  | e :: tr =>
    (match e with
      | Event.PTA_PCOR m =>
        if pinHigh r.ptaPDOR EN && pinHigh m EN then [lcdLatch r] else []
      | _ => []) ++ lcdView (applyEvent r e) tr

/-- Whether a transfer is a write to the controller. -/
def LcdTxn.isWrite : LcdTxn → Bool
  | LcdTxn.command _ => true
  | LcdTxn.data _ => true
  | _ => false

/-- The command and data bytes the LCD controller receives. -/
def lcdWrites (r : Regs) (tr : List Event) : List LcdTxn :=
  (lcdView r tr).filter LcdTxn.isWrite

/-- The bytes written to `UART0->D`, in order. -/
def uartWrites (tr : List Event) : List Nat :=
  tr.filterMap fun e => match e with
    | Event.UART0_D_write v => some v
    | _ => none

/-- The values stored to `receiveFlag`, in order. -/
def flagWrites (tr : List Event) : List Int :=
  tr.filterMap fun e => match e with
    | Event.receiveFlag_write v => some v
    | _ => none

/-- The values returned by the reads of `PTD->PDIR`, in order. -/
def pdirReads (tr : List Event) : List Nat :=
  tr.filterMap fun e => match e with
    | Event.PTD_PDIR_read v => some v
    | _ => none

/-- The registers as they are at each read of `PTD->PDIR` in a sequence of
accesses that starts with registers `r`. -/
def regsAtReads (r : Regs) : List Event → List Regs
  | [] => []
  | e :: tr =>
    (match e with
      | Event.PTD_PDIR_read _ => [r]
      | _ => []) ++ regsAtReads (applyEvent r e) tr

/-- The busy bit of a value read from `PTD->PDIR`, as `LCD_ready` tests it. -/
def busy (v : Nat) : Bool :=
  ((v % 256) &&& 0x80) != 0

/-- The transmit-buffer-empty bit of a value read from `UART0->S1`, as
`txData` tests it. -/
def txReady (v : Nat) : Bool :=
  ((v % 256) &&& 0x80) != 0

/-- The zero-initialised variables of the program at startup. -/
def initial (r : Regs) (pdir s1 : List Nat) : State :=
  { index := 0, incomingCommand := [0, 0, 0, 0], receiveFlag := 0,
    regs := r, log := [], pdirIn := pdir, s1In := s1 }

/-! ## Traces of the functions -/

/-- State reached from `s` by the register accesses `tr`, with the input
tapes advanced to `pdir` and `s1`. -/
def after (s : State) (tr : List Event) (pdir s1 : List Nat) : State :=
  { s with regs := replay s.regs tr, log := s.log ++ tr, pdirIn := pdir, s1In := s1 }

/-- The readings one polling loop consumes: those on which it keeps waiting,
then the one on which it stops. -/
structure Poll where
  /-- The readings on which the loop goes round again. -/
  waits : List Nat
  /-- The reading on which the loop stops. -/
  last : Nat
  deriving DecidableEq

/-- All readings of a poll, in order. -/
def Poll.readings (p : Poll) : List Nat :=
  p.waits ++ [p.last]

/-- A poll is well formed for the stop condition `stop`. -/
def Poll.ok (stop : Nat → Bool) (p : Poll) : Prop :=
  (∀ v ∈ p.waits, stop v = false) ∧ stop p.last = true

/-- The tape made of the readings of successive polls. -/
def tapeOf (ps : List Poll) : List Nat :=
  ps.flatMap Poll.readings

/-- A reading of `PTD->PDIR` with the busy bit clear. -/
def notBusy (v : Nat) : Bool :=
  !busy v

/-- The accesses of one pass through the loop of `LCD_ready` that reads `v`. -/
def pulseRead (v : Nat) : List Event :=
  [Event.PTA_PSOR EN, Event.delayMs 0, Event.PTD_PDIR_read v, Event.PTA_PCOR EN,
    Event.delayMs 0]

/-- The accesses of a call of `LCD_ready` whose status reads return `vs`. -/
def readyTrace (vs : List Nat) : List Event :=
  [Event.PTD_PDDR 0, Event.PTA_PCOR RS, Event.PTA_PSOR RW] ++ vs.flatMap pulseRead ++
    [Event.PTA_PCOR RW, Event.PTD_PDDR 0xFF]

/-- The accesses of `LCD_command_noWait(c)`, which are also those of
`LCD_command(c)` after its call of `LCD_ready`. -/
def commandTail (c : Nat) : List Event :=
  [Event.PTA_PCOR (RS ||| RW), Event.PTD_PDOR (c % 256), Event.PTA_PSOR EN, Event.delayMs 0,
    Event.PTA_PCOR EN]

/-- The accesses of `LCD_data(c)` after its call of `LCD_ready`. -/
def dataTail (c : Nat) : List Event :=
  [Event.PTA_PSOR RS, Event.PTA_PCOR RW, Event.PTD_PDOR (c % 256), Event.PTA_PSOR EN,
    Event.delayMs 0, Event.PTA_PCOR EN]

/-- The accesses of a call `LCD_command(c)` whose ready-wait consumes `p`. -/
def commandTrace (p : Poll) (c : Nat) : List Event :=
  readyTrace p.readings ++ commandTail c

/-- The accesses of a call `LCD_data(c)` whose ready-wait consumes `p`. -/
def dataTrace (p : Poll) (c : Nat) : List Event :=
  readyTrace p.readings ++ dataTail c

/-- The accesses of successive calls of `LCD_data`, one per character of `cs`,
the ready-waits consuming the polls `ps`. -/
def stringTrace (ps : List Poll) (cs : List Nat) : List Event :=
  (ps.zip cs).flatMap fun pc => dataTrace pc.1 pc.2

/-- The accesses of one pass through the outer loop of `txData`: the status
reads of the poll `p`, then the write of `c`. -/
def txByteTrace (p : Poll) (c : Nat) : List Event :=
  p.readings.map Event.UART0_S1_read ++ [Event.UART0_D_write (c % 256)]

/-- The accesses of `txData` sending `cs`, the waits consuming the polls `ps`. -/
def txTrace (ps : List Poll) (cs : List Nat) : List Event :=
  (ps.zip cs).flatMap fun pc => txByteTrace pc.1 pc.2

/-- The pins as `LCD_ready` holds them while it polls: data bus switched to
input, register-select low, read/write high. -/
def PollPins (r : Regs) : Prop :=
  r.ptdPDDR = 0 ∧ pinHigh r.ptaPDOR RS = false ∧ pinHigh r.ptaPDOR RW = true

/-- The program variables of a state. -/
def State.vars (s : State) : Int × List Nat × Int :=
  (s.index, s.incomingCommand, s.receiveFlag)

/-- States reachable from `s0` by calls of `UART0_IRQHandler`, each with an
arbitrary byte, and iterations of the loop of `main`, in any order. -/
inductive Reachable (s0 : State) : State → Prop where
  /-- The starting state. -/
  | start : Reachable s0 s0
  /-- A call of `UART0_IRQHandler` with the byte `d`. -/
  | irq (d : Nat) (s s' : State) :
      Reachable s0 s → UART0_IRQHandler d s = some s' → Reachable s0 s'
  /-- An iteration of the loop of `main`. -/
  | loop (s s' : State) : Reachable s0 s → main_iteration s = some s' → Reachable s0 s'

/-- The accesses of `LCD_cmd` showing the packet `buf`: the ready-waits of the
clear command, of the eight label characters, of the four packet bytes and of
the cursor command consume `p0`, `pl`, `pb` and `p13`. -/
def renderTrace (p0 : Poll) (pl pb : List Poll) (p13 : Poll) (buf : List Nat) : List Event :=
  commandTrace p0 0x01 ++ stringTrace pl (Command_label.take 8) ++ stringTrace pb buf ++
    commandTrace p13 0xC0

/-- The pin configuration at the start of `LCD_init`. -/
def pinSetup : List Event :=
  [Event.SIM_SCGC5_or 0x1000, Event.PORTD_PCR 0 0x100, Event.PORTD_PCR 1 0x100,
    Event.PORTD_PCR 2 0x100, Event.PORTD_PCR 3 0x100, Event.PORTD_PCR 4 0x100,
    Event.PORTD_PCR 5 0x100, Event.PORTD_PCR 6 0x100, Event.PORTD_PCR 7 0x100,
    Event.PTD_PDDR 0xFF, Event.SIM_SCGC5_or 0x0200, Event.PORTA_PCR 12 0x100,
    Event.PORTA_PCR 4 0x100, Event.PORTA_PCR 5 0x100, Event.PTA_PDDR_or 0x1030]

/-- The accesses of `LCD_init` up to and including the third `0x30` command. -/
def powerOnTrace : List Event :=
  pinSetup ++ [Event.delayMs 20] ++ commandTail 0x30 ++ [Event.delayMs 5] ++ commandTail 0x30 ++
    [Event.delayMs 1] ++ commandTail 0x30

/-- Whether every write to `UART0->D` in the trace comes immediately after a
read of `UART0->S1` that had the transmit-buffer-empty bit set; `ready` tells
whether the access before the trace was such a read. -/
def gatedFrom (ready : Bool) : List Event → Bool
  | [] => true
  | Event.UART0_S1_read v :: tr => gatedFrom (txReady v) tr
  | Event.UART0_D_write _ :: tr => ready && gatedFrom false tr
  | _ :: tr => gatedFrom false tr

/-- Registers all zero, for concrete runs. -/
def regs0 : Regs :=
  { scgc5 := 0, portaPCR := List.replicate 32 0, portdPCR := List.replicate 32 0,
    ptaPDDR := 0, ptaPDOR := 0, ptdPDDR := 0, ptdPDOR := 0 }

/-- The state after the packet `0x41,0x42,0x43,0x44` has been received from
startup and not yet been served: the buffer is full and `receiveFlag` is set. -/
def packetReady : State :=
  { initial regs0 [] [] with
    incomingCommand := [0x41, 0x42, 0x43, 0x44]
    receiveFlag := 1
    log := [Event.UART0_D_read 0x41, Event.UART0_D_read 0x42, Event.UART0_D_read 0x43,
      Event.UART0_D_read 0x44, Event.receiveFlag_write 1] }

/-! ## Basic facts on states and traces -/

theorem replay_append (r : Regs) (t1 t2 : List Event) :
    replay r (t1 ++ t2) = replay (replay r t1) t2 := by
  simp [replay, List.foldl_append]

theorem after_nil (s : State) : after s [] s.pdirIn s.s1In = s := by
  simp [after, replay]

theorem emit_after (e : Event) (s : State) (t : List Event) (p q : List Nat) :
    emit e (after s t p q) = after s (t ++ [e]) p q := by
  simp [emit, after, replay, List.foldl_append]

theorem read_PDIR_after (v : Nat) (rest : List Nat) (s : State) (t : List Event)
    (p q : List Nat) :
    read_PDIR v rest (after s t p q) = after s (t ++ [Event.PTD_PDIR_read v]) rest q := by
  simp [read_PDIR, emit, after, replay, List.foldl_append]

theorem read_S1_after (v : Nat) (rest : List Nat) (s : State) (t : List Event)
    (p q : List Nat) :
    read_S1 v rest (after s t p q) = after s (t ++ [Event.UART0_S1_read v]) p rest := by
  simp [read_S1, emit, after, replay, List.foldl_append]

/-! ## The polling loops -/

theorem LCD_ready_loop_eq (w : List Nat) (r : Nat) (rest : List Nat)
    (hw : ∀ v ∈ w, notBusy v = false) (hr : notBusy r = true) (s : State) (t : List Event)
    (p q : List Nat) :
    LCD_ready_loop (w ++ r :: rest) (after s t p q)
      = some (after s (t ++ (w ++ [r]).flatMap pulseRead) rest q) := by
  induction w generalizing t p with
  | nil =>
    have hr' : r % 256 &&& 128 = 0 := by simpa [notBusy, busy] using hr
    simp [LCD_ready_loop, delayMs, emit_after, read_PDIR_after, hr', pulseRead]
  | cons v w ih =>
    have hv : ¬ (v % 256 &&& 128 = 0) := by
      have := hw v (by simp)
      simpa [notBusy, busy] using this
    have hw' : ∀ x ∈ w, notBusy x = false := fun x hx => hw x (by simp [hx])
    simp [LCD_ready_loop, delayMs, emit_after, read_PDIR_after, hv, ih hw', pulseRead]

theorem LCD_ready_after (s : State) (t : List Event) (q : List Nat) (p : Poll)
    (rest : List Nat) (hp : p.ok notBusy) :
    LCD_ready (after s t (p.readings ++ rest) q)
      = some (after s (t ++ readyTrace p.readings) rest q) := by
  obtain ⟨hw, hr⟩ := hp
  have h := LCD_ready_loop_eq p.waits p.last rest hw hr s
    (t ++ [Event.PTD_PDDR 0, Event.PTA_PCOR RS, Event.PTA_PSOR RW]) (p.waits ++ p.last :: rest) q
  simp only [LCD_ready, emit_after, List.append_assoc, List.singleton_append, List.cons_append,
    List.nil_append, Poll.readings]
  have e : (after s (t ++ [Event.PTD_PDDR 0, Event.PTA_PCOR RS, Event.PTA_PSOR RW])
      (p.waits ++ p.last :: rest) q).pdirIn = p.waits ++ p.last :: rest := rfl
  rw [e, h]
  simp [emit_after, readyTrace]

theorem LCD_command_after (c : Nat) (s : State) (t : List Event) (q : List Nat) (p : Poll)
    (rest : List Nat) (hp : p.ok notBusy) :
    LCD_command c (after s t (p.readings ++ rest) q)
      = some (after s (t ++ commandTrace p c) rest q) := by
  simp [LCD_command, LCD_ready_after s t q p rest hp, emit_after, delayMs, commandTrace,
    commandTail]

theorem LCD_data_after (c : Nat) (s : State) (t : List Event) (q : List Nat) (p : Poll)
    (rest : List Nat) (hp : p.ok notBusy) :
    LCD_data c (after s t (p.readings ++ rest) q)
      = some (after s (t ++ dataTrace p c) rest q) := by
  simp [LCD_data, LCD_ready_after s t q p rest hp, emit_after, delayMs, dataTrace, dataTail]

theorem LCD_command_noWait_after (c : Nat) (s : State) (t : List Event) (p q : List Nat) :
    LCD_command_noWait c (after s t p q) = after s (t ++ commandTail c) p q := by
  simp [LCD_command_noWait, emit_after, delayMs, commandTail]

theorem LCD_write_string_loop_after (data : List Nat) (k : Nat) :
    ∀ (i : Nat) (ps : List Poll) (s : State) (t : List Event) (rest q : List Nat),
      ps.length = k → (∀ p ∈ ps, p.ok notBusy) → i + k ≤ data.length →
      LCD_write_string_loop data k i (after s t (tapeOf ps ++ rest) q)
        = some (after s (t ++ stringTrace ps ((data.drop i).take k)) rest q) := by
  induction k with
  | zero =>
    intro i ps s t rest q hlen _ _
    have : ps = [] := List.length_eq_zero.mp hlen
    subst this
    simp [LCD_write_string_loop, stringTrace, tapeOf]
  | succ k ih =>
    intro i ps s t rest q hlen hok hi
    match ps, hlen with
    | p :: ps, hlen =>
      have hlt : i < data.length := by omega
      have hp : p.ok notBusy := hok p (by simp)
      have hps : ∀ x ∈ ps, x.ok notBusy := fun x hx => hok x (by simp [hx])
      have hd : data.drop i = data[i] :: data.drop (i + 1) := List.drop_eq_getElem_cons hlt
      have htape : tapeOf (p :: ps) ++ rest = p.readings ++ (tapeOf ps ++ rest) := by
        simp [tapeOf]
      have hlen' : ps.length = k := by simpa using hlen
      rw [htape, hd, List.take_succ_cons, LCD_write_string_loop, List.getElem?_eq_getElem hlt]
      simp only [LCD_data_after _ s t q p _ hp, Option.some_bind,
        ih (i + 1) ps s _ rest q hlen' hps (by omega)]
      simp [stringTrace]

theorem txData_wait_after (w : List Nat) (r : Nat) (rest : List Nat)
    (hw : ∀ v ∈ w, txReady v = false) (hr : txReady r = true) (s : State) (t : List Event)
    (p q : List Nat) :
    txData_wait (w ++ r :: rest) (after s t p q)
      = some (after s (t ++ (w ++ [r]).map Event.UART0_S1_read) p rest) := by
  induction w generalizing t q with
  | nil =>
    have hr' : ¬ (r % 256 &&& 128 = 0) := by simpa [txReady] using hr
    simp [txData_wait, read_S1_after, hr']
  | cons v w ih =>
    have hv : v % 256 &&& 128 = 0 := by
      have := hw v (by simp)
      simpa [txReady] using this
    have hw' : ∀ x ∈ w, txReady x = false := fun x hx => hw x (by simp [hx])
    simp [txData_wait, read_S1_after, hv, ih hw']

theorem txData_loop_after (data : List Nat) (k : Nat) :
    ∀ (i : Nat) (ps : List Poll) (s : State) (t : List Event) (rest p : List Nat),
      ps.length = k → (∀ x ∈ ps, x.ok txReady) → i + k ≤ data.length →
      txData_loop data k i (after s t p (tapeOf ps ++ rest))
        = some (after s (t ++ txTrace ps ((data.drop i).take k)) p rest) := by
  induction k with
  | zero =>
    intro i ps s t rest p hlen _ _
    have : ps = [] := List.length_eq_zero.mp hlen
    subst this
    simp [txData_loop, txTrace, tapeOf]
  | succ k ih =>
    intro i ps s t rest p hlen hok hi
    match ps, hlen with
    | x :: ps, hlen =>
      have hlt : i < data.length := by omega
      obtain ⟨hw, hr⟩ := hok x (by simp)
      have hps : ∀ y ∈ ps, y.ok txReady := fun y hy => hok y (by simp [hy])
      have hd : data.drop i = data[i] :: data.drop (i + 1) := List.drop_eq_getElem_cons hlt
      have htape : tapeOf (x :: ps) ++ rest = x.waits ++ x.last :: (tapeOf ps ++ rest) := by
        simp [tapeOf, Poll.readings]
      have hlen' : ps.length = k := by simpa using hlen
      have e : (after s t p (tapeOf (x :: ps) ++ rest)).s1In
          = x.waits ++ x.last :: (tapeOf ps ++ rest) := htape
      rw [txData_loop, e, txData_wait_after x.waits x.last _ hw hr s t p _, hd,
        List.take_succ_cons]
      simp only [Option.some_bind, List.getElem?_eq_getElem hlt, emit_after,
        ih (i + 1) ps s _ rest p hlen' hps (by omega)]
      simp [txTrace, txByteTrace, Poll.readings]

/-! ## Parsing a tape into polls -/

theorem exists_poll (stop : Nat → Bool) (tape : List Nat) (h : 0 < tape.countP stop) :
    ∃ p rest, Poll.ok stop p ∧ tape = p.readings ++ rest ∧
      rest.countP stop + 1 = tape.countP stop := by
  induction tape with
  | nil => simp at h
  | cons v tape ih =>
    by_cases hv : stop v = true
    · exact ⟨⟨[], v⟩, tape, ⟨by simp, hv⟩, by simp [Poll.readings], by simp [hv]⟩
    · have hv' : stop v = false := by simpa using hv
      have h' : 0 < tape.countP stop := by simpa [List.countP_cons, hv'] using h
      obtain ⟨p, rest, ⟨hw, hl⟩, htape, hcount⟩ := ih h'
      refine ⟨⟨v :: p.waits, p.last⟩, rest, ⟨?_, hl⟩, ?_, ?_⟩
      · intro x hx
        rcases List.mem_cons.mp hx with rfl | hx
        · exact hv'
        · exact hw x hx
      · simp [Poll.readings] at htape ⊢
        exact htape
      · simp [List.countP_cons, hv', hcount]

theorem exists_polls (stop : Nat → Bool) (n : Nat) :
    ∀ tape : List Nat, n ≤ tape.countP stop →
      ∃ ps rest, ps.length = n ∧ (∀ p ∈ ps, Poll.ok stop p) ∧ tape = tapeOf ps ++ rest ∧
        rest.countP stop + n = tape.countP stop := by
  induction n with
  | zero => intro tape _; exact ⟨[], tape, rfl, by simp, by simp [tapeOf], by simp⟩
  | succ n ih =>
    intro tape h
    obtain ⟨p, rest, hp, htape, hcount⟩ := exists_poll stop tape (by omega)
    obtain ⟨ps, rest', hlen, hok, htape', hcount'⟩ := ih rest (by omega)
    refine ⟨p :: ps, rest', by simp [hlen], ?_, ?_, by omega⟩
    · intro x hx
      rcases List.mem_cons.mp hx with rfl | hx
      · exact hp
      · exact hok x hx
    · rw [htape, htape']; simp [tapeOf]

/-! ## Pin levels -/

theorem lor_eq_zero (a b : Nat) : a ||| b = 0 ↔ a = 0 ∧ b = 0 := by
  constructor
  · intro hab
    have h1 : ∀ i, a.testBit i = false ∧ b.testBit i = false := by
      intro i
      have := congrArg (fun n => Nat.testBit n i) hab
      simpa [Nat.testBit_or] using this
    exact ⟨Nat.eq_of_testBit_eq (fun i => by simp [(h1 i).1]),
      Nat.eq_of_testBit_eq (fun i => by simp [(h1 i).2])⟩
  · rintro ⟨rfl, rfl⟩; rfl

theorem pinHigh_or (x m k : Nat) : pinHigh (x ||| m) k = (pinHigh x k || pinHigh m k) := by
  simp only [pinHigh, Nat.and_distrib_right]
  rw [Bool.eq_iff_iff]
  simp [lor_eq_zero]
  tauto

theorem pinHigh_and (x c k : Nat) : pinHigh (x &&& c) k = pinHigh x (c &&& k) := by
  simp [pinHigh, Nat.and_assoc]

theorem pinHigh_zero (x : Nat) : pinHigh x 0 = false := by
  simp [pinHigh]

theorem mask_table :
    (0xFFFFFFFF ^^^ RS) &&& RS = 0 ∧ (0xFFFFFFFF ^^^ RS) &&& RW = RW ∧
    (0xFFFFFFFF ^^^ RS) &&& EN = EN ∧ (0xFFFFFFFF ^^^ RW) &&& RS = RS ∧
    (0xFFFFFFFF ^^^ RW) &&& RW = 0 ∧ (0xFFFFFFFF ^^^ RW) &&& EN = EN ∧
    (0xFFFFFFFF ^^^ EN) &&& RS = RS ∧ (0xFFFFFFFF ^^^ EN) &&& RW = RW ∧
    (0xFFFFFFFF ^^^ EN) &&& EN = 0 ∧ (0xFFFFFFFF ^^^ (RS ||| RW)) &&& RS = 0 ∧
    (0xFFFFFFFF ^^^ (RS ||| RW)) &&& RW = 0 ∧ (0xFFFFFFFF ^^^ (RS ||| RW)) &&& EN = EN := by
  decide

theorem pin_table :
    pinHigh RS RS = true ∧ pinHigh RS RW = false ∧ pinHigh RS EN = false ∧
    pinHigh RW RS = false ∧ pinHigh RW RW = true ∧ pinHigh RW EN = false ∧
    pinHigh EN RS = false ∧ pinHigh EN RW = false ∧ pinHigh EN EN = true ∧
    pinHigh (RS ||| RW) EN = false := by
  decide

/-! ## What the LCD controller sees of the traces -/

theorem lcdView_append (r : Regs) (t1 t2 : List Event) :
    lcdView r (t1 ++ t2) = lcdView r t1 ++ lcdView (replay r t1) t2 := by
  induction t1 generalizing r with
  | nil => simp [lcdView, replay]
  | cons e t1 ih => simp [lcdView, replay, ih, List.append_assoc]

theorem regsAtReads_append (r : Regs) (t1 t2 : List Event) :
    regsAtReads r (t1 ++ t2) = regsAtReads r t1 ++ regsAtReads (replay r t1) t2 := by
  induction t1 generalizing r with
  | nil => simp [regsAtReads, replay]
  | cons e t1 ih => simp [regsAtReads, replay, ih, List.append_assoc]

theorem pulseRead_view (r : Regs) (v : Nat) (h : PollPins r) :
    lcdView r (pulseRead v) = [LcdTxn.statusRead] ∧
    PollPins (replay r (pulseRead v)) ∧
    pinHigh (replay r (pulseRead v)).ptaPDOR EN = false ∧
    (replay r (pulseRead v)).ptdPDOR = r.ptdPDOR ∧
    (∀ q ∈ regsAtReads r (pulseRead v), PollPins q ∧ pinHigh q.ptaPDOR EN = true) := by
  obtain ⟨h1, h2, h3⟩ := h
  simp [pulseRead, lcdView, replay, applyEvent, lcdLatch, regsAtReads, PollPins, pinHigh_or,
    pinHigh_and, pinHigh_zero, mask_table, pin_table, h1, h2, h3]

theorem pulses_view (vs : List Nat) :
    ∀ r : Regs, PollPins r →
      lcdView r (vs.flatMap pulseRead) = vs.map (fun _ => LcdTxn.statusRead) ∧
      PollPins (replay r (vs.flatMap pulseRead)) ∧
      (pinHigh r.ptaPDOR EN = false ∨ vs ≠ [] →
        pinHigh (replay r (vs.flatMap pulseRead)).ptaPDOR EN = false) ∧
      (replay r (vs.flatMap pulseRead)).ptdPDOR = r.ptdPDOR ∧
      (∀ q ∈ regsAtReads r (vs.flatMap pulseRead), PollPins q ∧ pinHigh q.ptaPDOR EN = true) := by
  induction vs with
  | nil =>
    intro r h
    simp [lcdView, replay, regsAtReads, h]
  | cons v vs ih =>
    intro r h
    obtain ⟨a1, a2, a3, a4, a5⟩ := pulseRead_view r v h
    obtain ⟨b1, b2, b3, b4, b5⟩ := ih (replay r (pulseRead v)) a2
    simp only [List.flatMap_cons, lcdView_append, replay_append, regsAtReads_append, a1, b1]
    refine ⟨by simp, b2, fun _ => b3 (Or.inl a3), by rw [b4, a4], ?_⟩
    intro q hq
    rcases List.mem_append.mp hq with hq | hq
    · exact a5 q hq
    · exact b5 q hq

theorem readyTrace_view (r : Regs) (vs : List Nat) :
    lcdView r (readyTrace vs) = vs.map (fun _ => LcdTxn.statusRead) ∧
    (∀ q ∈ regsAtReads r (readyTrace vs), PollPins q ∧ pinHigh q.ptaPDOR EN = true) ∧
    (replay r (readyTrace vs)).ptdPDDR = 0xFF ∧
    pinHigh (replay r (readyTrace vs)).ptaPDOR RS = false ∧
    pinHigh (replay r (readyTrace vs)).ptaPDOR RW = false ∧
    (vs ≠ [] → pinHigh (replay r (readyTrace vs)).ptaPDOR EN = false) ∧
    (replay r (readyTrace vs)).ptdPDOR = r.ptdPDOR := by
  have h0 : PollPins (replay r [Event.PTD_PDDR 0, Event.PTA_PCOR RS, Event.PTA_PSOR RW]) := by
    simp [PollPins, replay, applyEvent, pinHigh_or, pinHigh_and, pinHigh_zero, mask_table,
      pin_table]
  obtain ⟨b1, ⟨b2, b2', b2''⟩, b3, b4, b5⟩ := pulses_view vs _ h0
  have e : readyTrace vs = [Event.PTD_PDDR 0, Event.PTA_PCOR RS, Event.PTA_PSOR RW] ++
      (vs.flatMap pulseRead ++ [Event.PTA_PCOR RW, Event.PTD_PDDR 0xFF]) := by
    simp [readyTrace]
  rw [e]
  simp only [lcdView_append, replay_append, regsAtReads_append, b1]
  refine ⟨?_, ?_, ?_, ?_, ?_, ?_, ?_⟩
  · simp [lcdView, pin_table]
  · intro q hq
    simp only [List.mem_append] at hq
    rcases hq with hq | hq | hq
    · simp [regsAtReads] at hq
    · exact b5 q hq
    · simp [regsAtReads] at hq
  · simp [replay, applyEvent]
  · simpa [replay, applyEvent, pinHigh_and, mask_table] using b2'
  · simp [replay, applyEvent, pinHigh_and, pinHigh_zero, mask_table]
  · intro hne
    have := b3 (Or.inr hne)
    simpa [replay, applyEvent, pinHigh_and, mask_table] using this
  · rw [show (replay (replay (replay r [Event.PTD_PDDR 0, Event.PTA_PCOR RS, Event.PTA_PSOR RW])
        (vs.flatMap pulseRead)) [Event.PTA_PCOR RW, Event.PTD_PDDR 0xFF]).ptdPDOR
        = (replay (replay r [Event.PTD_PDDR 0, Event.PTA_PCOR RS, Event.PTA_PSOR RW])
        (vs.flatMap pulseRead)).ptdPDOR from by simp [replay, applyEvent], b4]
    simp [replay, applyEvent]

theorem commandTail_view (r : Regs) (c : Nat) :
    lcdView r (commandTail c) = [LcdTxn.command (c % 256)] := by
  simp [commandTail, lcdView, applyEvent, lcdLatch, pinHigh_or, pinHigh_and, pinHigh_zero,
    mask_table, pin_table]

theorem dataTail_view (r : Regs) (c : Nat) :
    lcdView r (dataTail c) = [LcdTxn.data (c % 256)] := by
  simp [dataTail, lcdView, applyEvent, lcdLatch, pinHigh_or, pinHigh_and, pinHigh_zero,
    mask_table, pin_table]

theorem lcdWrites_append (r : Regs) (t1 t2 : List Event) :
    lcdWrites r (t1 ++ t2) = lcdWrites r t1 ++ lcdWrites (replay r t1) t2 := by
  simp [lcdWrites, lcdView_append]

theorem lcdWrites_readyTrace (r : Regs) (vs : List Nat) : lcdWrites r (readyTrace vs) = [] := by
  simp [lcdWrites, (readyTrace_view r vs).1, List.filter_eq_nil_iff, LcdTxn.isWrite]

theorem lcdWrites_commandTrace (r : Regs) (p : Poll) (c : Nat) :
    lcdWrites r (commandTrace p c) = [LcdTxn.command (c % 256)] := by
  simp [commandTrace, lcdWrites_append, lcdWrites_readyTrace]
  simp [lcdWrites, commandTail_view, LcdTxn.isWrite]

theorem lcdWrites_dataTrace (r : Regs) (p : Poll) (c : Nat) :
    lcdWrites r (dataTrace p c) = [LcdTxn.data (c % 256)] := by
  simp [dataTrace, lcdWrites_append, lcdWrites_readyTrace]
  simp [lcdWrites, dataTail_view, LcdTxn.isWrite]

theorem lcdWrites_stringTrace (ps : List Poll) :
    ∀ (r : Regs) (cs : List Nat), ps.length = cs.length →
      lcdWrites r (stringTrace ps cs) = cs.map fun c => LcdTxn.data (c % 256) := by
  induction ps with
  | nil =>
    intro r cs h
    have : cs = [] := List.length_eq_zero.mp h.symm
    subst this
    simp [stringTrace, lcdWrites, lcdView]
  | cons p ps ih =>
    intro r cs h
    match cs, h with
    | c :: cs, h =>
      have h' : ps.length = cs.length := by simpa using h
      have e : stringTrace (p :: ps) (c :: cs) = dataTrace p c ++ stringTrace ps cs := by
        simp [stringTrace]
      rw [e, lcdWrites_append, lcdWrites_dataTrace, ih _ cs h']
      simp

theorem lcdView_txTrace (r : Regs) (ps : List Poll) (cs : List Nat) :
    lcdView r (txTrace ps cs) = [] ∧ replay r (txTrace ps cs) = r := by
  have h : ∀ (tr : List Event) (r : Regs),
      (∀ e ∈ tr, (∃ v, e = Event.UART0_S1_read v) ∨ ∃ v, e = Event.UART0_D_write v) →
      lcdView r tr = [] ∧ replay r tr = r := by
    intro tr
    induction tr with
    | nil => intro r _; simp [lcdView, replay]
    | cons e tr ih =>
      intro r he
      have ht := ih r (fun x hx => he x (by simp [hx]))
      rcases he e (by simp) with ⟨v, rfl⟩ | ⟨v, rfl⟩
      · simpa [lcdView, replay, applyEvent] using ht
      · simpa [lcdView, replay, applyEvent] using ht
  apply h
  intro e he
  simp only [txTrace, txByteTrace, List.mem_flatMap, List.mem_append, List.mem_map,
    List.mem_singleton] at he
  obtain ⟨pc, _, ⟨v, _, rfl⟩ | rfl⟩ := he
  · exact Or.inl ⟨v, rfl⟩
  · exact Or.inr ⟨_, rfl⟩

/-! ## What the UART sees of the traces -/

theorem uartWrites_append (t1 t2 : List Event) :
    uartWrites (t1 ++ t2) = uartWrites t1 ++ uartWrites t2 := by
  simp [uartWrites, List.filterMap_append]

theorem uartWrites_readyTrace (vs : List Nat) : uartWrites (readyTrace vs) = [] := by
  have h : uartWrites (vs.flatMap pulseRead) = [] := by
    induction vs with
    | nil => simp [uartWrites]
    | cons v vs ih =>
      rw [List.flatMap_cons, uartWrites_append, ih]
      simp [uartWrites, pulseRead]
  rw [readyTrace, uartWrites_append, uartWrites_append, h]
  simp [uartWrites]

theorem uartWrites_commandTrace (p : Poll) (c : Nat) : uartWrites (commandTrace p c) = [] := by
  rw [commandTrace, uartWrites_append, uartWrites_readyTrace]
  simp [uartWrites, commandTail]

theorem uartWrites_dataTrace (p : Poll) (c : Nat) : uartWrites (dataTrace p c) = [] := by
  rw [dataTrace, uartWrites_append, uartWrites_readyTrace]
  simp [uartWrites, dataTail]

theorem uartWrites_stringTrace (ps : List Poll) (cs : List Nat) :
    uartWrites (stringTrace ps cs) = [] := by
  induction ps generalizing cs with
  | nil => simp [stringTrace, uartWrites]
  | cons p ps ih =>
    cases cs with
    | nil => simp [stringTrace, uartWrites]
    | cons c cs =>
      have e : stringTrace (p :: ps) (c :: cs) = dataTrace p c ++ stringTrace ps cs := by
        simp [stringTrace]
      rw [e, uartWrites_append, uartWrites_dataTrace, ih]
      rfl

theorem uartWrites_txTrace (ps : List Poll) :
    ∀ cs : List Nat, ps.length = cs.length →
      uartWrites (txTrace ps cs) = cs.map fun c => c % 256 := by
  induction ps with
  | nil =>
    intro cs h
    have : cs = [] := List.length_eq_zero.mp h.symm
    subst this
    simp [txTrace, uartWrites]
  | cons p ps ih =>
    intro cs h
    match cs, h with
    | c :: cs, h =>
      have h' : ps.length = cs.length := by simpa using h
      have e : txTrace (p :: ps) (c :: cs) = txByteTrace p c ++ txTrace ps cs := by
        simp [txTrace]
      have e2 : uartWrites (txByteTrace p c) = [c % 256] := by
        simp [uartWrites, txByteTrace, List.filterMap_append, List.filterMap_map]
      rw [e, uartWrites_append, e2, ih cs h']
      simp

/-! ## The display and transmit functions leave the program variables alone -/

theorem emit_vars (e : Event) (s : State) : (emit e s).vars = s.vars := rfl

theorem delayMs_vars (n : Int) (s : State) : (delayMs n s).vars = s.vars := rfl

theorem read_PDIR_vars (v : Nat) (rest : List Nat) (s : State) :
    (read_PDIR v rest s).vars = s.vars := rfl

theorem read_S1_vars (v : Nat) (rest : List Nat) (s : State) :
    (read_S1 v rest s).vars = s.vars := rfl

theorem LCD_ready_loop_vars (tape : List Nat) :
    ∀ s s' : State, LCD_ready_loop tape s = some s' → s'.vars = s.vars := by
  induction tape with
  | nil => intro s s' h; simp [LCD_ready_loop] at h
  | cons v tape ih =>
    intro s s' h
    simp only [LCD_ready_loop] at h
    split at h
    · simpa [emit_vars, delayMs_vars, read_PDIR_vars] using ih _ _ h
    · cases h; simp [emit_vars, delayMs_vars, read_PDIR_vars]

theorem LCD_ready_vars (s s' : State) (h : LCD_ready s = some s') : s'.vars = s.vars := by
  simp only [LCD_ready, Option.map_eq_some'] at h
  obtain ⟨s1, h1, rfl⟩ := h
  simpa [emit_vars] using LCD_ready_loop_vars _ _ _ h1

theorem LCD_command_vars (c : Nat) (s s' : State) (h : LCD_command c s = some s') :
    s'.vars = s.vars := by
  simp only [LCD_command, Option.map_eq_some'] at h
  obtain ⟨s1, h1, rfl⟩ := h
  simpa [emit_vars, delayMs_vars] using LCD_ready_vars _ _ h1

theorem LCD_data_vars (c : Nat) (s s' : State) (h : LCD_data c s = some s') :
    s'.vars = s.vars := by
  simp only [LCD_data, Option.map_eq_some'] at h
  obtain ⟨s1, h1, rfl⟩ := h
  simpa [emit_vars, delayMs_vars] using LCD_ready_vars _ _ h1

theorem LCD_write_string_loop_vars (data : List Nat) (k : Nat) :
    ∀ (i : Nat) (s s' : State), LCD_write_string_loop data k i s = some s' →
      s'.vars = s.vars := by
  induction k with
  | zero => intro i s s' h; simp [LCD_write_string_loop] at h; rw [h]
  | succ k ih =>
    intro i s s' h
    simp only [LCD_write_string_loop] at h
    split at h
    · simp at h
    · simp only [Option.bind_eq_some] at h
      obtain ⟨s1, h1, h2⟩ := h
      exact (ih _ _ _ h2).trans (LCD_data_vars _ _ _ h1)

theorem LCD_cmd_vars (s s' : State) (h : LCD_cmd s = some s') : s'.vars = s.vars := by
  simp only [LCD_cmd, Option.bind_eq_some] at h
  obtain ⟨s1, h1, s2, h2, s3, h3, h4⟩ := h
  exact (LCD_command_vars _ _ _ h4).trans ((LCD_write_string_loop_vars _ _ _ _ _ h3).trans
    ((LCD_write_string_loop_vars _ _ _ _ _ h2).trans (LCD_command_vars _ _ _ h1)))

theorem txData_wait_vars (tape : List Nat) :
    ∀ s s' : State, txData_wait tape s = some s' → s'.vars = s.vars := by
  induction tape with
  | nil => intro s s' h; simp [txData_wait] at h
  | cons v tape ih =>
    intro s s' h
    simp only [txData_wait] at h
    split at h
    · simpa [read_S1_vars] using ih _ _ h
    · cases h; simp [read_S1_vars]

theorem txData_loop_vars (data : List Nat) (k : Nat) :
    ∀ (i : Nat) (s s' : State), txData_loop data k i s = some s' → s'.vars = s.vars := by
  induction k with
  | zero => intro i s s' h; simp [txData_loop] at h; rw [h]
  | succ k ih =>
    intro i s s' h
    simp only [txData_loop, Option.bind_eq_some] at h
    obtain ⟨s1, h1, h2⟩ := h
    split at h2
    · simp at h2
    · exact (ih _ _ _ h2).trans ((emit_vars _ _).trans (txData_wait_vars _ _ _ h1))

theorem txData_vars (data : List Nat) (s s' : State) (h : txData data s = some s') :
    s'.vars = s.vars :=
  txData_loop_vars _ _ _ _ _ h

theorem main_iteration_frame (s s' : State) (h : main_iteration s = some s') :
    s'.index = s.index ∧ s'.incomingCommand = s.incomingCommand := by
  simp only [main_iteration] at h
  split at h
  · simp only [Option.bind_eq_some] at h
    obtain ⟨s1, h1, s2, h2, h3⟩ := h
    have e1 := LCD_cmd_vars _ _ h1
    have e2 := txData_vars _ _ _ h2
    cases h3
    simp only [State.vars, Prod.mk.injEq] at e1 e2
    exact ⟨e2.1.trans e1.1, e2.2.1.trans e1.2.1⟩
  · cases h; exact ⟨rfl, rfl⟩

/-! ## The receive handler -/

theorem UART0_IRQHandler_eq (d : Nat) (s : State) (h0 : 0 ≤ s.index) (h4 : s.index < 4)
    (hlen : s.incomingCommand.length = 4) :
    UART0_IRQHandler d s = some
      { s with
        incomingCommand := s.incomingCommand.set s.index.toNat (d % 256)
        index := if s.index = 3 then 0 else s.index + 1
        receiveFlag := if s.index = 3 then 1 else s.receiveFlag
        log := s.log ++ (Event.UART0_D_read d ::
          (if s.index = 3 then [Event.receiveFlag_write 1] else [])) } := by
  have hb : s.index.toNat < s.incomingCommand.length := by omega
  by_cases h3 : s.index = 3
  · simp [UART0_IRQHandler, emit, applyEvent, h3, hlen, STANDARD_DATA_PACKET_SIZE]
  · have h3' : ¬ s.index + 1 = 4 := by omega
    simp [UART0_IRQHandler, emit, applyEvent, h0, hb, h3, h3', STANDARD_DATA_PACKET_SIZE]

theorem length_four (l : List Nat) (h : l.length = 4) :
    ∃ x0 x1 x2 x3, l = [x0, x1, x2, x3] := by
  match l, h with
  | [x0, x1, x2, x3], _ => exact ⟨x0, x1, x2, x3, rfl⟩

theorem receiveBytes_spec :
    ∀ (bs : List Nat) (s : State), s.index = 0 → s.incomingCommand.length = 4 →
      ∃ s', receiveBytes bs s = some s' ∧
        s'.index = ((bs.length % 4 : Nat) : Int) ∧
        s'.receiveFlag = (if 4 ≤ bs.length then 1 else s.receiveFlag) ∧
        s'.incomingCommand.length = 4 ∧
        (0 < bs.length → bs.length % 4 = 0 →
          s'.incomingCommand = (bs.drop (bs.length - 4)).map fun b => b % 256) ∧
        s'.regs = s.regs ∧ (∃ tr, s'.log = s.log ++ tr ∧ uartWrites tr = []) ∧
        s'.pdirIn = s.pdirIn ∧ s'.s1In = s.s1In
  | [], s, hi, hl => ⟨s, by simp [receiveBytes, hi, hl], by simp [hi], by simp, hl, by simp, rfl,
      ⟨[], by simp, rfl⟩, rfl, rfl⟩
  | [a], ⟨idx, buf, fl, rg, lg, p, q⟩, hi, hl => by
    obtain ⟨x0, x1, x2, x3, rfl⟩ := length_four buf hl
    simp at hi; subst hi
    simp [receiveBytes, UART0_IRQHandler, emit, applyEvent, STANDARD_DATA_PACKET_SIZE]
    rfl
  | [a, b], ⟨idx, buf, fl, rg, lg, p, q⟩, hi, hl => by
    obtain ⟨x0, x1, x2, x3, rfl⟩ := length_four buf hl
    simp at hi; subst hi
    simp [receiveBytes, UART0_IRQHandler, emit, applyEvent, STANDARD_DATA_PACKET_SIZE]
    rfl
  | [a, b, c], ⟨idx, buf, fl, rg, lg, p, q⟩, hi, hl => by
    obtain ⟨x0, x1, x2, x3, rfl⟩ := length_four buf hl
    simp at hi; subst hi
    simp [receiveBytes, UART0_IRQHandler, emit, applyEvent, STANDARD_DATA_PACKET_SIZE]
    rfl
  | a :: b :: c :: d :: rest, ⟨idx, buf, fl, rg, lg, p, q⟩, hi, hl => by
    obtain ⟨x0, x1, x2, x3, rfl⟩ := length_four buf hl
    simp at hi; subst hi
    obtain ⟨s', h1, h2, h3, h4, h5, h6, h7, h8, h9⟩ := receiveBytes_spec rest
      ⟨0, [a % 256, b % 256, c % 256, d % 256], 1, rg,
        lg ++ [Event.UART0_D_read a, Event.UART0_D_read b, Event.UART0_D_read c,
          Event.UART0_D_read d, Event.receiveFlag_write 1], p, q⟩ rfl rfl
    refine ⟨s', ?_, ?_, ?_, h4, ?_, h6, ?_, h8, h9⟩
    · simpa [receiveBytes, UART0_IRQHandler, emit, applyEvent, STANDARD_DATA_PACKET_SIZE]
        using h1
    · rw [h2]; simp only [List.length_cons]; omega
    · rw [h3]; simp
    · intro _ hmod
      simp only [List.length_cons] at hmod ⊢
      by_cases hr : rest = []
      · subst hr
        simp [receiveBytes] at h1
        subst h1
        simp
      · have hpos : 0 < rest.length := List.length_pos.mpr hr
        have hmod' : rest.length % 4 = 0 := by omega
        rw [h5 hpos hmod']
        have hge : 4 ≤ rest.length := by omega
        have e : rest.length + 1 + 1 + 1 + 1 - 4 = rest.length - 4 + 4 := by omega
        rw [e]
        simp
    · obtain ⟨tr, e1, e2⟩ := h7
      refine ⟨[Event.UART0_D_read a, Event.UART0_D_read b, Event.UART0_D_read c,
        Event.UART0_D_read d, Event.receiveFlag_write 1] ++ tr, ?_, ?_⟩
      · rw [e1]; simp
      · rw [uartWrites_append, e2]; rfl

/-! ## The composite display functions -/

theorem LCD_cmd_after (s : State) (t : List Event) (q : List Nat) (p0 : Poll)
    (pl pb : List Poll) (p13 : Poll) (rest : List Nat)
    (h0 : p0.ok notBusy) (hl : ∀ p ∈ pl, Poll.ok notBusy p) (hll : pl.length = 8)
    (hb : ∀ p ∈ pb, Poll.ok notBusy p) (hbl : pb.length = 4) (h13 : p13.ok notBusy)
    (hbuf : s.incomingCommand.length = 4) :
    LCD_cmd (after s t (p0.readings ++ (tapeOf pl ++ (tapeOf pb ++ (p13.readings ++ rest)))) q)
      = some (after s (t ++ renderTrace p0 pl pb p13 s.incomingCommand) rest q) := by
  have e1 : (8 : Int).toNat = 8 := rfl
  have e2 : STANDARD_DATA_PACKET_SIZE.toNat = 4 := rfl
  have e3 : ∀ (t' : List Event) (p' q' : List Nat),
      (after s t' p' q').incomingCommand = s.incomingCommand := fun _ _ _ => rfl
  have e4 : (s.incomingCommand.drop 0).take 4 = s.incomingCommand := by
    simp [List.take_of_length_le (Nat.le_of_eq hbuf)]
  simp only [LCD_cmd, LCD_write_string, LCD_command_after _ s t q p0 _ h0, Option.some_bind,
    e1, e2, e3]
  rw [LCD_write_string_loop_after Command_label 8 0 pl s _ _ q hll hl (by decide)]
  simp only [Option.some_bind, e3]
  rw [LCD_write_string_loop_after s.incomingCommand 4 0 pb s _ _ q hbl hb (by omega), e4]
  simp only [Option.some_bind]
  rw [LCD_command_after _ s _ q p13 _ h13]
  simp [renderTrace, List.append_assoc]

theorem LCD_init_after (s : State) (t : List Event) (q : List Nat) (p1 p2 p3 p4 : Poll)
    (rest : List Nat) (h1 : p1.ok notBusy) (h2 : p2.ok notBusy) (h3 : p3.ok notBusy)
    (h4 : p4.ok notBusy) :
    LCD_init (after s t (p1.readings ++ (p2.readings ++ (p3.readings ++ (p4.readings ++ rest)))) q)
      = some (after s (t ++ (powerOnTrace ++ commandTrace p1 0x38 ++ commandTrace p2 0x06 ++
          commandTrace p3 0x01 ++ commandTrace p4 0x0F)) rest q) := by
  simp only [LCD_init, emit_after, delayMs, LCD_command_noWait_after]
  rw [LCD_command_after _ s _ q p1 _ h1]
  simp only [Option.some_bind]
  rw [LCD_command_after _ s _ q p2 _ h2]
  simp only [Option.some_bind]
  rw [LCD_command_after _ s _ q p3 _ h3]
  simp only [Option.some_bind]
  rw [LCD_command_after _ s _ q p4 _ h4]
  simp [powerOnTrace, pinSetup, List.append_assoc]

theorem LCD_write_int_loop_after (fuel : Nat) :
    ∀ (n : Nat) (ps : List Poll) (s : State) (t : List Event) (rest q : List Nat),
      n ≤ fuel → ps.length = (Nat.digits 10 n).length → (∀ p ∈ ps, Poll.ok notBusy p) →
      LCD_write_int_loop fuel (n : Int) (after s t (tapeOf ps ++ rest) q)
        = some (after s (t ++ stringTrace ps ((Nat.digits 10 n).map fun d => 0x30 + d)) rest q) := by
  induction fuel with
  | zero =>
    intro n ps s t rest q hn hlen _
    have hn0 : n = 0 := by omega
    subst hn0
    have : ps = [] := List.length_eq_zero.mp (by simpa using hlen)
    subst this
    simp [LCD_write_int_loop, stringTrace, tapeOf]
  | succ fuel ih =>
    intro n ps s t rest q hn hlen hok
    by_cases hn0 : n = 0
    · subst hn0
      have : ps = [] := List.length_eq_zero.mp (by simpa using hlen)
      subst this
      simp [LCD_write_int_loop, stringTrace, tapeOf]
    · have hpos : 0 < n := Nat.pos_of_ne_zero hn0
      have hd : Nat.digits 10 n = n % 10 :: Nat.digits 10 (n / 10) :=
        Nat.digits_def' (by decide) hpos
      rw [hd] at hlen ⊢
      match ps, hlen with
      | p :: ps, hlen =>
        have hp : p.ok notBusy := hok p (by simp)
        have hps : ∀ x ∈ ps, Poll.ok notBusy x := fun x hx => hok x (by simp [hx])
        have hlen' : ps.length = (Nat.digits 10 (n / 10)).length := by simpa using hlen
        have hgt : (n : Int) > 0 := by exact_mod_cast hpos
        have hc : ((0x30 + (n : Int).tmod 10) % 256).toNat = 0x30 + n % 10 := by
          have hm : (n : Int).tmod 10 = ((n % 10 : Nat) : Int) := (Int.ofNat_tmod n 10).symm
          have : n % 10 < 10 := Nat.mod_lt _ (by decide)
          rw [hm]
          omega
        have hq : (n : Int).tdiv 10 = ((n / 10 : Nat) : Int) := (Int.ofNat_tdiv n 10).symm
        have htape : tapeOf (p :: ps) ++ rest = p.readings ++ (tapeOf ps ++ rest) := by
          simp [tapeOf]
        rw [LCD_write_int_loop, if_pos hgt, htape]
        simp only [hc, hq, LCD_data_after _ s t q p _ hp, Option.some_bind]
        rw [ih (n / 10) ps s _ rest q (by omega) hlen' hps]
        simp [stringTrace]

/-! ## Claims on the receive path -/

/-- C2 (packet completion): from a state with `index = 0` and `receiveFlag = 0`,
after `n` bytes have been delivered by successive calls of `UART0_IRQHandler`
the calls have all returned, `index` is `n mod 4`, `receiveFlag` is set exactly
when `n >= 4`, and whenever `n` is a positive multiple of 4 `incomingCommand`
holds the last four bytes received, in arrival order. -/
theorem packet_completion (s : State) (bs : List Nat)
    (hidx : s.index = 0) (hflag : s.receiveFlag = 0) (hlen : s.incomingCommand.length = 4)
    (hb : ∀ b ∈ bs, b < 256) :
    ∃ s', receiveBytes bs s = some s' ∧
      s'.index = ((bs.length % 4 : Nat) : Int) ∧
      (s'.receiveFlag ≠ 0 ↔ 4 ≤ bs.length) ∧
      (0 < bs.length → bs.length % 4 = 0 → s'.incomingCommand = bs.drop (bs.length - 4)) := by
  obtain ⟨s', h1, h2, h3, _, h5, _⟩ := receiveBytes_spec bs s hidx hlen
  refine ⟨s', h1, h2, ?_, ?_⟩
  · rw [h3, hflag]
    by_cases h : 4 ≤ bs.length <;> simp [h]
  · intro hpos hmod
    rw [h5 hpos hmod]
    have : ∀ l : List Nat, (∀ b ∈ l, b < 256) → l.map (fun b => b % 256) = l := by
      intro l hl
      induction l with
      | nil => rfl
      | cons a l ih =>
        have ha : a % 256 = a := Nat.mod_eq_of_lt (hl a (by simp))
        simp [ha, ih (fun b hb' => hl b (by simp [hb']))]
    exact this _ (fun b hb' => hb b (List.mem_of_mem_drop hb'))

/-- C2 at the packet `0x41,0x42,0x43,0x44`: the flag is set, `index` is 0 and the
buffer holds the four bytes. -/
theorem packet_completion_ABCD :
    ∃ s', receiveBytes [0x41, 0x42, 0x43, 0x44] (initial regs0 [] []) = some s' ∧
      s'.index = 0 ∧ (s'.receiveFlag ≠ 0 ↔ 4 ≤ 4) ∧
      (0 < 4 → 4 % 4 = 0 → s'.incomingCommand = [0x41, 0x42, 0x43, 0x44]) :=
  packet_completion (initial regs0 [] []) [0x41, 0x42, 0x43, 0x44] rfl rfl rfl (by decide)

/-- C3 (packet length invariant): in every state reachable from a state with
`index = 0` and a 4-byte buffer by calls of `UART0_IRQHandler` and iterations of
the main loop, `0 <= index < 4` and the buffer has 4 bytes; a call of the handler
in such a state returns, its store goes to position `index` of the buffer, and
on exit again `0 <= index < 4` and the buffer has 4 bytes. -/
theorem index_in_bounds (s0 s : State) (hidx : s0.index = 0)
    (hlen : s0.incomingCommand.length = 4) (h : Reachable s0 s) :
    (0 ≤ s.index ∧ s.index < 4 ∧ s.incomingCommand.length = 4) ∧
    ∀ d : Nat, ∃ s', UART0_IRQHandler d s = some s' ∧
      s'.incomingCommand = s.incomingCommand.set s.index.toNat (d % 256) ∧
      s.index.toNat < s.incomingCommand.length ∧
      0 ≤ s'.index ∧ s'.index < 4 ∧ s'.incomingCommand.length = 4 := by
  have step : ∀ (d : Nat) (x : State), 0 ≤ x.index → x.index < 4 →
      x.incomingCommand.length = 4 →
      ∃ x', UART0_IRQHandler d x = some x' ∧
        x'.incomingCommand = x.incomingCommand.set x.index.toNat (d % 256) ∧
        x.index.toNat < x.incomingCommand.length ∧
        0 ≤ x'.index ∧ x'.index < 4 ∧ x'.incomingCommand.length = 4 := by
    intro d x h0 h4 hl
    refine ⟨_, UART0_IRQHandler_eq d x h0 h4 hl, rfl, by omega, ?_, ?_, by simp [hl]⟩
    · show 0 ≤ (if x.index = 3 then (0 : Int) else x.index + 1)
      split <;> omega
    · show (if x.index = 3 then (0 : Int) else x.index + 1) < 4
      split <;> omega
  have inv : 0 ≤ s.index ∧ s.index < 4 ∧ s.incomingCommand.length = 4 := by
    induction h with
    | start => exact ⟨by omega, by omega, hlen⟩
    | irq d x x' _ hx ih =>
      obtain ⟨a, b, c⟩ := ih
      obtain ⟨y, hy, _, _, e1, e2, e3⟩ := step d x a b c
      rw [hx] at hy
      cases hy
      exact ⟨e1, e2, e3⟩
    | loop x x' _ hx ih =>
      obtain ⟨e1, e2⟩ := main_iteration_frame x x' hx
      rw [e1, e2]
      exact ih
  exact ⟨inv, fun d => step d s inv.1 inv.2.1 inv.2.2⟩

/-- C3 at the state reached from startup by the byte `0x41`. -/
theorem index_in_bounds_after_one_byte :
    (0 ≤ (1 : Int) ∧ (1 : Int) < 4 ∧ [0x41, 0, 0, 0].length = 4) ∧
    ∀ d : Nat, ∃ s',
      UART0_IRQHandler d
        { initial regs0 [] [] with
          index := 1, incomingCommand := [0x41, 0, 0, 0], log := [Event.UART0_D_read 0x41] }
        = some s' ∧
      s'.incomingCommand = [0x41, d % 256, 0, 0] ∧ 1 < 4 ∧
      0 ≤ s'.index ∧ s'.index < 4 ∧ s'.incomingCommand.length = 4 :=
  index_in_bounds (initial regs0 [] [])
    { initial regs0 [] [] with
      index := 1, incomingCommand := [0x41, 0, 0, 0], log := [Event.UART0_D_read 0x41] }
    rfl rfl (Reachable.irq 0x41 _ _ Reachable.start (by decide))

/-! ## Counting the accesses of a ready-wait -/

theorem pdirReads_append (t1 t2 : List Event) :
    pdirReads (t1 ++ t2) = pdirReads t1 ++ pdirReads t2 := by
  simp [pdirReads, List.filterMap_append]

theorem pdirReads_pulses (vs : List Nat) : pdirReads (vs.flatMap pulseRead) = vs := by
  induction vs with
  | nil => simp [pdirReads]
  | cons v vs ih =>
    rw [List.flatMap_cons, pdirReads_append, ih]
    simp [pdirReads, pulseRead]

theorem pdirReads_readyTrace (vs : List Nat) : pdirReads (readyTrace vs) = vs := by
  rw [readyTrace, pdirReads_append, pdirReads_append, pdirReads_pulses]
  simp [pdirReads]

theorem masks_ne : RS ≠ EN ∧ RW ≠ EN ∧ RS ≠ RW ∧ RS ||| RW ≠ EN := by decide

theorem count_readyTrace (vs : List Nat) :
    (readyTrace vs).count (Event.PTA_PSOR EN) = vs.length ∧
    (readyTrace vs).count (Event.PTA_PCOR EN) = vs.length := by
  have h : (vs.flatMap pulseRead).count (Event.PTA_PSOR EN) = vs.length ∧
      (vs.flatMap pulseRead).count (Event.PTA_PCOR EN) = vs.length := by
    induction vs with
    | nil => simp
    | cons v vs ih =>
      rw [List.flatMap_cons, List.count_append, List.count_append, ih.1, ih.2]
      simp [pulseRead, List.count_cons]
      omega
  simp [readyTrace, List.count_append, List.count_cons, h, masks_ne]

theorem regsAtReads_length (tr : List Event) :
    ∀ r : Regs, (regsAtReads r tr).length = (pdirReads tr).length := by
  induction tr with
  | nil => intro r; rfl
  | cons e tr ih =>
    intro r
    cases e <;> simp [regsAtReads, pdirReads, ih]

theorem gatedFrom_reads (ws : List Nat) (v : Nat) (tr : List Event) (b : Bool) :
    gatedFrom b (ws.map Event.UART0_S1_read ++ Event.UART0_S1_read v :: tr)
      = gatedFrom (txReady v) tr := by
  induction ws generalizing b with
  | nil => simp [gatedFrom]
  | cons w ws ih => simp [gatedFrom, ih]

theorem gatedFrom_txTrace (ps : List Poll) :
    ∀ (cs : List Nat) (b : Bool), (∀ p ∈ ps, Poll.ok txReady p) →
      gatedFrom b (txTrace ps cs) = true := by
  induction ps with
  | nil => intro cs b _; simp [txTrace, gatedFrom]
  | cons p ps ih =>
    intro cs b hok
    cases cs with
    | nil => simp [txTrace, gatedFrom]
    | cons c cs =>
      have e : txTrace (p :: ps) (c :: cs) = p.waits.map Event.UART0_S1_read ++
          Event.UART0_S1_read p.last :: Event.UART0_D_write (c % 256) :: txTrace ps cs := by
        simp [txTrace, txByteTrace, Poll.readings]
      rw [e, gatedFrom_reads, (hok p (by simp)).2]
      simp [gatedFrom, ih cs false (fun x hx => hok x (by simp [hx]))]

theorem map_mod_of_lt (l : List Nat) (h : ∀ b ∈ l, b < 256) :
    (l.map fun b => b % 256) = l := by
  induction l with
  | nil => rfl
  | cons a l ih =>
    have ha : a % 256 = a := Nat.mod_eq_of_lt (h a (by simp))
    simp [ha, ih (fun b hb => h b (by simp [hb]))]

/-! ## Claims on the display driver and the transmitter -/

/-- C10 (ready-wait): when the reads of the LCD bus return `k` status bytes with
the busy bit set and then one with it clear, `LCD_ready` returns after exactly
`k+1` enable pulses and `k+1` status reads; at each read the bus is an input,
RS is low and RW is high (so each pulse is a status read for the controller);
on exit the bus direction is output (`PDDR = 0xFF`) and RW and EN are low. -/
theorem ready_wait (s : State) (w : List Nat) (r : Nat) (rest : List Nat)
    (hw : ∀ v ∈ w, busy v = true) (hr : busy r = false) (htape : s.pdirIn = w ++ r :: rest) :
    ∃ s' tr, LCD_ready s = some s' ∧ s'.log = s.log ++ tr ∧ s'.regs = replay s.regs tr ∧
      s'.pdirIn = rest ∧ s'.vars = s.vars ∧ s'.s1In = s.s1In ∧
      pdirReads tr = w ++ [r] ∧
      tr.count (Event.PTA_PSOR EN) = w.length + 1 ∧
      tr.count (Event.PTA_PCOR EN) = w.length + 1 ∧
      lcdView s.regs tr = List.replicate (w.length + 1) LcdTxn.statusRead ∧
      (regsAtReads s.regs tr).length = w.length + 1 ∧
      (∀ q ∈ regsAtReads s.regs tr, q.ptdPDDR = 0 ∧ pinHigh q.ptaPDOR RS = false ∧
        pinHigh q.ptaPDOR RW = true ∧ pinHigh q.ptaPDOR EN = true) ∧
      s'.regs.ptdPDDR = 0xFF ∧ pinHigh s'.regs.ptaPDOR RW = false ∧
      pinHigh s'.regs.ptaPDOR EN = false := by
  have hp : Poll.ok notBusy ⟨w, r⟩ :=
    ⟨fun v hv => by simp [notBusy, hw v hv], by simp [notBusy, hr]⟩
  have hrun := LCD_ready_after s [] s.s1In ⟨w, r⟩ rest hp
  have hs : after s [] (Poll.readings ⟨w, r⟩ ++ rest) s.s1In = s := by
    rw [← after_nil s, htape]
    simp [after, Poll.readings, replay]
  rw [hs] at hrun
  obtain ⟨v1, v2, v3, _, v5, v6, _⟩ := readyTrace_view s.regs (w ++ [r])
  refine ⟨_, readyTrace (w ++ [r]), hrun, by simp [after, Poll.readings],
    by simp [after, Poll.readings], rfl, rfl, rfl, pdirReads_readyTrace _, ?_, ?_, ?_, ?_, ?_,
    ?_, ?_, ?_⟩
  · simpa using (count_readyTrace (w ++ [r])).1
  · simpa using (count_readyTrace (w ++ [r])).2
  · rw [v1]; simp [List.replicate_succ', List.map_const']
  · rw [regsAtReads_length, pdirReads_readyTrace]; simp
  · intro q hq
    obtain ⟨⟨a, b, c⟩, d⟩ := v2 q hq
    exact ⟨a, b, c, d⟩
  · simpa [after, Poll.readings] using v3
  · simpa [after, Poll.readings] using v5
  · simpa [after, Poll.readings] using v6 (by simp)

/-- C10 on the status bytes `0x80, 0xFF, 0x00`: two busy readings, then one not
busy. -/
theorem ready_wait_two_busy :
    ∃ s' tr, LCD_ready (initial regs0 [0x80, 0xFF, 0x00, 0x80] []) = some s' ∧
      s'.log = [] ++ tr ∧ s'.regs = replay regs0 tr ∧
      s'.pdirIn = [0x80] ∧ s'.vars = (initial regs0 [0x80, 0xFF, 0x00, 0x80] []).vars ∧
      s'.s1In = [] ∧
      pdirReads tr = [0x80, 0xFF] ++ [0x00] ∧
      tr.count (Event.PTA_PSOR EN) = 2 + 1 ∧
      tr.count (Event.PTA_PCOR EN) = 2 + 1 ∧
      lcdView regs0 tr = List.replicate (2 + 1) LcdTxn.statusRead ∧
      (regsAtReads regs0 tr).length = 2 + 1 ∧
      (∀ q ∈ regsAtReads regs0 tr, q.ptdPDDR = 0 ∧ pinHigh q.ptaPDOR RS = false ∧
        pinHigh q.ptaPDOR RW = true ∧ pinHigh q.ptaPDOR EN = true) ∧
      s'.regs.ptdPDDR = 0xFF ∧ pinHigh s'.regs.ptaPDOR RW = false ∧
      pinHigh s'.regs.ptaPDOR EN = false :=
  ready_wait (initial regs0 [0x80, 0xFF, 0x00, 0x80] []) [0x80, 0xFF] 0x00 [0x80]
    (by decide) (by decide) rfl

/-- C9 (writeText order): for `len` at most the length of `data`, given `len`
not-busy readings on the LCD bus, `LCD_write_string(data, len)` returns after
exactly `len` data-send transactions carrying `data[0]`, ..., `data[len-1]` in
that order, each made of a completed ready-wait followed by the data write,
and no command transaction; for `len = 0` it does nothing. -/
theorem write_string_order (data : List Nat) (len : Int) (s : State)
    (hlen : len ≤ data.length) (hb : ∀ b ∈ data, b < 256)
    (hcount : len.toNat ≤ s.pdirIn.countP notBusy) :
    ∃ s' ps rest, LCD_write_string data len s = some s' ∧
      ps.length = len.toNat ∧ (∀ p ∈ ps, Poll.ok notBusy p) ∧
      s.pdirIn = tapeOf ps ++ rest ∧ s'.pdirIn = rest ∧
      s'.log = s.log ++ (ps.zip (data.take len.toNat)).flatMap
        (fun pc => readyTrace pc.1.readings ++ dataTail pc.2) ∧
      lcdWrites s.regs ((ps.zip (data.take len.toNat)).flatMap
        (fun pc => readyTrace pc.1.readings ++ dataTail pc.2))
        = (data.take len.toNat).map LcdTxn.data ∧
      (len = 0 → s' = s) := by
  obtain ⟨ps, rest, hps, hok, htape, _⟩ := exists_polls notBusy len.toNat s.pdirIn hcount
  have hle : 0 + len.toNat ≤ data.length := by omega
  have hrun := LCD_write_string_loop_after data len.toNat 0 ps s [] rest s.s1In hps hok hle
  have hs : after s [] (tapeOf ps ++ rest) s.s1In = s := by
    rw [← after_nil s, htape]
    simp [after, replay]
  rw [hs] at hrun
  have htr : stringTrace ps (data.take len.toNat) = (ps.zip (data.take len.toNat)).flatMap
      (fun pc => readyTrace pc.1.readings ++ dataTail pc.2) := rfl
  have hlen2 : ps.length = (data.take len.toNat).length := by
    rw [List.length_take, hps]; omega
  have hw' : (List.map (fun c => LcdTxn.data (c % 256)) (data.take len.toNat))
      = (data.take len.toNat).map LcdTxn.data := by
    have := map_mod_of_lt (data.take len.toNat) (fun b hb' => hb b (List.mem_of_mem_take hb'))
    conv_rhs => rw [← this]
    simp [List.map_map, Function.comp_def]
  simp only [List.nil_append, List.drop_zero] at hrun
  refine ⟨after s (stringTrace ps (data.take len.toNat)) rest s.s1In, ps, rest, ?_, hps, hok,
    htape, rfl, ?_, ?_, ?_⟩
  · simpa [LCD_write_string] using hrun
  · simp [after, htr]
  · rw [← htr, lcdWrites_stringTrace ps s.regs (data.take len.toNat) hlen2, hw']
  · intro h0
    subst h0
    have : ps = [] := List.length_eq_zero.mp (by simpa using hps)
    subst this
    simp [tapeOf] at htape
    rw [← htape]
    simpa [stringTrace] using after_nil s

/-- C9 on the first two characters of `"Hi!"`, with one busy reading before the
second character. -/
theorem write_string_order_Hi :
    ∃ s' ps rest, LCD_write_string [0x48, 0x69, 0x21] 2 (initial regs0 [0, 0x80, 0, 0] [])
        = some s' ∧
      ps.length = (2 : Int).toNat ∧ (∀ p ∈ ps, Poll.ok notBusy p) ∧
      (initial regs0 [0, 0x80, 0, 0] []).pdirIn = tapeOf ps ++ rest ∧ s'.pdirIn = rest ∧
      s'.log = [] ++ (ps.zip ([0x48, 0x69, 0x21].take (2 : Int).toNat)).flatMap
        (fun pc => readyTrace pc.1.readings ++ dataTail pc.2) ∧
      lcdWrites regs0 ((ps.zip ([0x48, 0x69, 0x21].take (2 : Int).toNat)).flatMap
        (fun pc => readyTrace pc.1.readings ++ dataTail pc.2))
        = ([0x48, 0x69, 0x21].take (2 : Int).toNat).map LcdTxn.data ∧
      ((2 : Int) = 0 → s' = initial regs0 [0, 0x80, 0, 0] []) :=
  write_string_order [0x48, 0x69, 0x21] 2 (initial regs0 [0, 0x80, 0, 0] []) (by decide)
    (by decide) (by decide)

/-- C8 (transmit): for a 4-byte array and status readings of `UART0->S1` that
have the transmit-buffer-empty bit set at least four times, `txData(data)`
returns having written exactly `data[0]`, `data[1]`, `data[2]`, `data[3]` to
`UART0->D` in that order; each write comes immediately after a status read with
the bit set, none after a read with the bit clear; the array and all other
variables and registers are unchanged. -/
theorem transmit_gated (data : List Nat) (s : State) (hlen : data.length = 4)
    (hb : ∀ b ∈ data, b < 256) (hcount : 4 ≤ s.s1In.countP txReady) :
    ∃ s' ps rest tr, txData data s = some s' ∧
      ps.length = 4 ∧ (∀ p ∈ ps, Poll.ok txReady p) ∧
      s.s1In = tapeOf ps ++ rest ∧ s'.s1In = rest ∧
      tr = (ps.zip data).flatMap
        (fun pc => pc.1.readings.map Event.UART0_S1_read ++ [Event.UART0_D_write pc.2]) ∧
      s'.log = s.log ++ tr ∧
      uartWrites tr = data ∧ gatedFrom false tr = true ∧
      s'.vars = s.vars ∧ s'.regs = s.regs ∧ s'.pdirIn = s.pdirIn := by
  obtain ⟨ps, rest, hps, hok, htape, _⟩ := exists_polls txReady 4 s.s1In hcount
  have hrun := txData_loop_after data 4 0 ps s [] rest s.pdirIn hps hok (by omega)
  have hs : after s [] s.pdirIn (tapeOf ps ++ rest) = s := by
    rw [← after_nil s, htape]
    simp [after, replay]
  have hd : (data.drop 0).take 4 = data := by
    simp [List.take_of_length_le (Nat.le_of_eq hlen)]
  rw [hs, hd] at hrun
  simp only [List.nil_append] at hrun
  have htr : txTrace ps data = (ps.zip data).flatMap
      (fun pc => pc.1.readings.map Event.UART0_S1_read ++ [Event.UART0_D_write pc.2]) := by
    simp only [txTrace, txByteTrace]
    apply List.flatMap_congr
    intro pc hpc
    rw [Nat.mod_eq_of_lt (hb pc.2 (List.of_mem_zip hpc).2)]
  refine ⟨after s (txTrace ps data) s.pdirIn rest, ps, rest, txTrace ps data, hrun, hps, hok,
    htape, rfl, htr, rfl, ?_, ?_, rfl, ?_, rfl⟩
  · rw [uartWrites_txTrace ps data (by omega), map_mod_of_lt data hb]
  · exact gatedFrom_txTrace ps data false hok
  · simp [after, (lcdView_txTrace s.regs ps data).2]

/-- C8 on the bytes `0x41,0x42,0x43,0x44`, with a not-ready status reading
before the first and before the third byte. -/
theorem transmit_gated_ABCD :
    ∃ s' ps rest tr,
      txData [0x41, 0x42, 0x43, 0x44] (initial regs0 [] [0, 0x80, 0xC0, 0x40, 0x80, 0x80])
        = some s' ∧
      ps.length = 4 ∧ (∀ p ∈ ps, Poll.ok txReady p) ∧
      (initial regs0 [] [0, 0x80, 0xC0, 0x40, 0x80, 0x80]).s1In = tapeOf ps ++ rest ∧
      s'.s1In = rest ∧
      tr = (ps.zip [0x41, 0x42, 0x43, 0x44]).flatMap
        (fun pc => pc.1.readings.map Event.UART0_S1_read ++ [Event.UART0_D_write pc.2]) ∧
      s'.log = [] ++ tr ∧
      uartWrites tr = [0x41, 0x42, 0x43, 0x44] ∧ gatedFrom false tr = true ∧
      s'.vars = (initial regs0 [] [0, 0x80, 0xC0, 0x40, 0x80, 0x80]).vars ∧
      s'.regs = regs0 ∧ s'.pdirIn = [] :=
  transmit_gated [0x41, 0x42, 0x43, 0x44] (initial regs0 [] [0, 0x80, 0xC0, 0x40, 0x80, 0x80])
    rfl (by decide) (by decide)

/-! ## Rendering, initialisation and the integer writer -/

theorem after_self (s : State) (p q : List Nat) (hp : s.pdirIn = p) (hq : s.s1In = q) :
    after s [] p q = s := by
  subst hp hq
  exact after_nil s

theorem LCD_cmd_run (s : State) (hbuf : s.incomingCommand.length = 4)
    (hcount : 14 ≤ s.pdirIn.countP notBusy) :
    ∃ (p0 : Poll) (pl pb : List Poll) (p13 : Poll) (rest : List Nat),
      pl.length = 8 ∧ pb.length = 4 ∧
      s.pdirIn = p0.readings ++ (tapeOf pl ++ (tapeOf pb ++ (p13.readings ++ rest))) ∧
      LCD_cmd s = some (after s (renderTrace p0 pl pb p13 s.incomingCommand) rest s.s1In) := by
  obtain ⟨p0, r0, h0, e0, c0⟩ := exists_poll notBusy s.pdirIn (by omega)
  obtain ⟨pl, r1, hll, hl, e1, c1⟩ := exists_polls notBusy 8 r0 (by omega)
  obtain ⟨pb, r2, hbl, hb, e2, c2⟩ := exists_polls notBusy 4 r1 (by omega)
  obtain ⟨p13, rest, h13, e3, _⟩ := exists_poll notBusy r2 (by omega)
  have htape : s.pdirIn = p0.readings ++ (tapeOf pl ++ (tapeOf pb ++ (p13.readings ++ rest))) := by
    rw [e0, e1, e2, e3]
  have hrun := LCD_cmd_after s [] s.s1In p0 pl pb p13 rest h0 hl hll hb hbl h13 hbuf
  rw [after_self s _ _ htape rfl] at hrun
  exact ⟨p0, pl, pb, p13, rest, hll, hbl, htape, by simpa using hrun⟩

theorem lcdWrites_renderTrace (r : Regs) (p0 : Poll) (pl pb : List Poll) (p13 : Poll)
    (buf : List Nat) (hll : pl.length = 8) (hbl : pb.length = buf.length) :
    lcdWrites r (renderTrace p0 pl pb p13 buf)
      = [LcdTxn.command 0x01] ++ (Command_label.take 8).map (fun c => LcdTxn.data (c % 256)) ++
        buf.map (fun c => LcdTxn.data (c % 256)) ++ [LcdTxn.command 0xC0] := by
  simp only [renderTrace, lcdWrites_append, lcdWrites_commandTrace,
    lcdWrites_stringTrace pl _ (Command_label.take 8) (by rw [hll]; rfl),
    lcdWrites_stringTrace pb _ buf hbl]

theorem uartWrites_renderTrace (p0 : Poll) (pl pb : List Poll) (p13 : Poll) (buf : List Nat) :
    uartWrites (renderTrace p0 pl pb p13 buf) = [] := by
  simp [renderTrace, uartWrites_append, uartWrites_commandTrace, uartWrites_stringTrace]

/-- C5 (display content): with the packet `b0,b1,b2,b3` in `incomingCommand`,
`LCD_cmd` returns after exactly 14 writes to the LCD controller, in this order:
command `0x01`; data `C`,`o`,`m`,`m`,`a`,`n`,`d`,`:`; data `b0`,`b1`,`b2`,`b3`
(unchanged); command `0xC0`.  No other command or data byte reaches the LCD. -/
theorem display_content (s : State) (b0 b1 b2 b3 : Nat)
    (hbuf : s.incomingCommand = [b0, b1, b2, b3])
    (h0 : b0 < 256) (h1 : b1 < 256) (h2 : b2 < 256) (h3 : b3 < 256)
    (hcount : 14 ≤ s.pdirIn.countP notBusy) :
    ∃ s' tr, LCD_cmd s = some s' ∧ s'.log = s.log ++ tr ∧
      lcdWrites s.regs tr =
        [LcdTxn.command 0x01] ++ ("Command:".toList.map fun ch => LcdTxn.data ch.toNat) ++
          [LcdTxn.data b0, LcdTxn.data b1, LcdTxn.data b2, LcdTxn.data b3] ++
          [LcdTxn.command 0xC0] ∧
      (lcdWrites s.regs tr).length = 14 := by
  have hlen : s.incomingCommand.length = 4 := by rw [hbuf]; rfl
  obtain ⟨p0, pl, pb, p13, rest, hll, hbl, _, hrun⟩ := LCD_cmd_run s hlen hcount
  have hw := lcdWrites_renderTrace s.regs p0 pl pb p13 s.incomingCommand hll (by omega)
  have hw' : lcdWrites s.regs (renderTrace p0 pl pb p13 s.incomingCommand) =
      [LcdTxn.command 0x01] ++ ("Command:".toList.map fun ch => LcdTxn.data ch.toNat) ++
        [LcdTxn.data b0, LcdTxn.data b1, LcdTxn.data b2, LcdTxn.data b3] ++
        [LcdTxn.command 0xC0] := by
    rw [hw, hbuf]
    simp [Command_label, Nat.mod_eq_of_lt, h0, h1, h2, h3]
  refine ⟨_, renderTrace p0 pl pb p13 s.incomingCommand, hrun, rfl, hw', ?_⟩
  rw [hw']
  rfl

/-- C5 on the packet `ABCD`. -/
theorem display_content_ABCD :
    ∃ s' tr,
      LCD_cmd { initial regs0 (List.replicate 14 0) [] with
        incomingCommand := [0x41, 0x42, 0x43, 0x44] } = some s' ∧
      s'.log = [] ++ tr ∧
      lcdWrites regs0 tr =
        [LcdTxn.command 0x01] ++ ("Command:".toList.map fun ch => LcdTxn.data ch.toNat) ++
          [LcdTxn.data 0x41, LcdTxn.data 0x42, LcdTxn.data 0x43, LcdTxn.data 0x44] ++
          [LcdTxn.command 0xC0] ∧
      (lcdWrites regs0 tr).length = 14 :=
  display_content
    { initial regs0 (List.replicate 14 0) [] with incomingCommand := [0x41, 0x42, 0x43, 0x44] }
    0x41 0x42 0x43 0x44 rfl (by decide) (by decide) (by decide) (by decide) (by decide)

/-- C7 (initialisation sequence): given four not-busy readings of the LCD bus,
`LCD_init` returns; after the pin configuration its accesses are `delayMs(20)`,
the command `0x30`, `delayMs(5)`, the command `0x30`, `delayMs(1)`, the command
`0x30`, with no read of the LCD bus so far, and then for each of `0x38`, `0x06`,
`0x01`, `0x0F` a completed ready-wait immediately followed by the command.  The
LCD controller receives exactly these seven command bytes in this order and no
data byte. -/
theorem init_sequence (s : State) (hcount : 4 ≤ s.pdirIn.countP notBusy) :
    ∃ s' p1 p2 p3 p4 rest, LCD_init s = some s' ∧
      Poll.ok notBusy p1 ∧ Poll.ok notBusy p2 ∧ Poll.ok notBusy p3 ∧ Poll.ok notBusy p4 ∧
      s.pdirIn = p1.readings ++ (p2.readings ++ (p3.readings ++ (p4.readings ++ rest))) ∧
      s'.pdirIn = rest ∧
      s'.log = s.log ++ (pinSetup ++ [Event.delayMs 20] ++ commandTail 0x30 ++
        [Event.delayMs 5] ++ commandTail 0x30 ++ [Event.delayMs 1] ++ commandTail 0x30 ++
        readyTrace p1.readings ++ commandTail 0x38 ++ readyTrace p2.readings ++ commandTail 0x06 ++
        readyTrace p3.readings ++ commandTail 0x01 ++ readyTrace p4.readings ++ commandTail 0x0F) ∧
      pdirReads (pinSetup ++ [Event.delayMs 20] ++ commandTail 0x30 ++
        [Event.delayMs 5] ++ commandTail 0x30 ++ [Event.delayMs 1] ++ commandTail 0x30) = [] ∧
      lcdView s.regs (pinSetup ++ [Event.delayMs 20] ++ commandTail 0x30 ++
        [Event.delayMs 5] ++ commandTail 0x30 ++ [Event.delayMs 1] ++ commandTail 0x30)
        = [LcdTxn.command 0x30, LcdTxn.command 0x30, LcdTxn.command 0x30] ∧
      lcdWrites s.regs (pinSetup ++ [Event.delayMs 20] ++ commandTail 0x30 ++
        [Event.delayMs 5] ++ commandTail 0x30 ++ [Event.delayMs 1] ++ commandTail 0x30 ++
        readyTrace p1.readings ++ commandTail 0x38 ++ readyTrace p2.readings ++ commandTail 0x06 ++
        readyTrace p3.readings ++ commandTail 0x01 ++ readyTrace p4.readings ++ commandTail 0x0F)
        = [LcdTxn.command 0x30, LcdTxn.command 0x30, LcdTxn.command 0x30, LcdTxn.command 0x38,
            LcdTxn.command 0x06, LcdTxn.command 0x01, LcdTxn.command 0x0F] := by
  obtain ⟨p1, r1, h1, e1, c1⟩ := exists_poll notBusy s.pdirIn (by omega)
  obtain ⟨p2, r2, h2, e2, c2⟩ := exists_poll notBusy r1 (by omega)
  obtain ⟨p3, r3, h3, e3, c3⟩ := exists_poll notBusy r2 (by omega)
  obtain ⟨p4, rest, h4, e4, _⟩ := exists_poll notBusy r3 (by omega)
  have htape : s.pdirIn = p1.readings ++ (p2.readings ++ (p3.readings ++ (p4.readings ++ rest))) := by
    rw [e1, e2, e3, e4]
  have hrun := LCD_init_after s [] s.s1In p1 p2 p3 p4 rest h1 h2 h3 h4
  rw [after_self s _ _ htape rfl] at hrun
  have hpin : ∀ r : Regs, lcdView r pinSetup = [] := by
    intro r; simp [pinSetup, lcdView]
  have hdel : ∀ (r : Regs) (n : Int), lcdView r [Event.delayMs n] = [] := by
    intro r n; simp [lcdView]
  have hview : ∀ r : Regs, lcdView r (pinSetup ++ [Event.delayMs 20] ++ commandTail 0x30 ++
      [Event.delayMs 5] ++ commandTail 0x30 ++ [Event.delayMs 1] ++ commandTail 0x30)
      = [LcdTxn.command 0x30, LcdTxn.command 0x30, LcdTxn.command 0x30] := by
    intro r
    simp only [lcdView_append, hpin, hdel, commandTail_view]
    rfl
  refine ⟨_, p1, p2, p3, p4, rest, hrun, h1, h2, h3, h4, htape, rfl, ?_, ?_, hview s.regs, ?_⟩
  · simp [after, powerOnTrace, commandTrace, List.append_assoc]
  · simp [pdirReads, pinSetup, commandTail, List.filterMap_append]
  · simp only [lcdWrites, lcdView_append, hview, (readyTrace_view _ _).1, commandTail_view,
      List.filter_append, List.filter_map]
    simp [List.filter_eq_nil_iff, LcdTxn.isWrite, Function.comp_def]

/-- C7 with one busy reading before the ready-wait of `0x06` completes. -/
theorem init_sequence_example :
    ∃ s' p1 p2 p3 p4 rest, LCD_init (initial regs0 [0, 0x80, 0, 0, 0] []) = some s' ∧
      Poll.ok notBusy p1 ∧ Poll.ok notBusy p2 ∧ Poll.ok notBusy p3 ∧ Poll.ok notBusy p4 ∧
      (initial regs0 [0, 0x80, 0, 0, 0] []).pdirIn
        = p1.readings ++ (p2.readings ++ (p3.readings ++ (p4.readings ++ rest))) ∧
      s'.pdirIn = rest ∧
      s'.log = [] ++ (pinSetup ++ [Event.delayMs 20] ++ commandTail 0x30 ++
        [Event.delayMs 5] ++ commandTail 0x30 ++ [Event.delayMs 1] ++ commandTail 0x30 ++
        readyTrace p1.readings ++ commandTail 0x38 ++ readyTrace p2.readings ++ commandTail 0x06 ++
        readyTrace p3.readings ++ commandTail 0x01 ++ readyTrace p4.readings ++ commandTail 0x0F) ∧
      pdirReads (pinSetup ++ [Event.delayMs 20] ++ commandTail 0x30 ++
        [Event.delayMs 5] ++ commandTail 0x30 ++ [Event.delayMs 1] ++ commandTail 0x30) = [] ∧
      lcdView regs0 (pinSetup ++ [Event.delayMs 20] ++ commandTail 0x30 ++
        [Event.delayMs 5] ++ commandTail 0x30 ++ [Event.delayMs 1] ++ commandTail 0x30)
        = [LcdTxn.command 0x30, LcdTxn.command 0x30, LcdTxn.command 0x30] ∧
      lcdWrites regs0 (pinSetup ++ [Event.delayMs 20] ++ commandTail 0x30 ++
        [Event.delayMs 5] ++ commandTail 0x30 ++ [Event.delayMs 1] ++ commandTail 0x30 ++
        readyTrace p1.readings ++ commandTail 0x38 ++ readyTrace p2.readings ++ commandTail 0x06 ++
        readyTrace p3.readings ++ commandTail 0x01 ++ readyTrace p4.readings ++ commandTail 0x0F)
        = [LcdTxn.command 0x30, LcdTxn.command 0x30, LcdTxn.command 0x30, LcdTxn.command 0x38,
            LcdTxn.command 0x06, LcdTxn.command 0x01, LcdTxn.command 0x0F] :=
  init_sequence (initial regs0 [0, 0x80, 0, 0, 0] []) (by decide)

theorem digitChar_toNat (d : Nat) (h : d < 10) : (Nat.digitChar d).toNat = 0x30 + d := by
  interval_cases d <;> rfl

theorem toDigitsCore_eq (fuel : Nat) :
    ∀ (n : Nat) (ds : List Char), n < fuel → 0 < n →
      Nat.toDigitsCore 10 fuel n ds = ((Nat.digits 10 n).reverse.map Nat.digitChar) ++ ds := by
  induction fuel with
  | zero => intro n ds h; omega
  | succ fuel ih =>
    intro n ds hlt hpos
    have hd : Nat.digits 10 n = n % 10 :: Nat.digits 10 (n / 10) :=
      Nat.digits_def' (by decide) hpos
    rw [Nat.toDigitsCore, hd]
    by_cases h0 : n / 10 = 0
    · simp [h0]
    · have hpos' : 0 < n / 10 := Nat.pos_of_ne_zero h0
      have hlt' : n / 10 < fuel := by omega
      simp only [h0, if_false]
      rw [ih (n / 10) _ hlt' hpos']
      simp

theorem repr_reverse (n : Nat) (hpos : 0 < n) :
    (Nat.repr n).toList.reverse.map Char.toNat = (Nat.digits 10 n).map fun d => 0x30 + d := by
  have h : (Nat.repr n).toList = (Nat.digits 10 n).reverse.map Nat.digitChar := by
    simp [Nat.repr, Nat.toDigits, toDigitsCore_eq (n + 1) n [] (by omega) hpos, List.asString]
  rw [h]
  simp only [← List.map_reverse, List.reverse_reverse, List.map_map]
  apply List.map_congr_left
  intro d hd
  exact digitChar_toNat d (Nat.digits_lt_base (by decide) hd)

/-- C6 (writeInteger digits): for `n > 0`, given one not-busy reading of the LCD
bus per digit, `LCD_write_int(n)` returns having sent as LCD data exactly the
characters of the decimal representation of `n` in reversed order (least
significant digit first, each `0x30 + digit`), every one after a completed
ready-wait; for `n = 0` it sends nothing. -/
theorem write_int_digits (n : Int) (s : State) :
    (0 < n → (Nat.digits 10 n.toNat).length ≤ s.pdirIn.countP notBusy →
      ∃ s' ps rest tr, LCD_write_int n s = some s' ∧
        ps.length = (Nat.digits 10 n.toNat).length ∧ (∀ p ∈ ps, Poll.ok notBusy p) ∧
        s.pdirIn = tapeOf ps ++ rest ∧ s'.pdirIn = rest ∧
        tr = (ps.zip ((Nat.digits 10 n.toNat).map fun d => 0x30 + d)).flatMap
          (fun pc => readyTrace pc.1.readings ++ dataTail pc.2) ∧
        s'.log = s.log ++ tr ∧
        lcdWrites s.regs tr = (Nat.digits 10 n.toNat).map (fun d => LcdTxn.data (0x30 + d)) ∧
        lcdWrites s.regs tr
          = (Nat.repr n.toNat).toList.reverse.map (fun ch => LcdTxn.data ch.toNat)) ∧
    (n = 0 → LCD_write_int n s = some s) := by
  constructor
  · intro hpos hcount
    obtain ⟨ps, rest, hps, hok, htape, _⟩ :=
      exists_polls notBusy (Nat.digits 10 n.toNat).length s.pdirIn hcount
    have hn : ((n.toNat : Nat) : Int) = n := Int.toNat_of_nonneg (by omega)
    have hrun := LCD_write_int_loop_after n.toNat n.toNat ps s [] rest s.s1In (Nat.le_refl _)
      hps hok
    rw [after_self s _ _ htape rfl, hn] at hrun
    simp only [List.nil_append] at hrun
    have hw : lcdWrites s.regs (stringTrace ps ((Nat.digits 10 n.toNat).map fun d => 0x30 + d))
        = (Nat.digits 10 n.toNat).map (fun d => LcdTxn.data (0x30 + d)) := by
      rw [lcdWrites_stringTrace ps s.regs _ (by simp [hps]), List.map_map]
      apply List.map_congr_left
      intro d hd
      have : d < 10 := Nat.digits_lt_base (by decide) hd
      show LcdTxn.data ((0x30 + d) % 256) = LcdTxn.data (0x30 + d)
      rw [Nat.mod_eq_of_lt (by omega)]
    refine ⟨after s (stringTrace ps ((Nat.digits 10 n.toNat).map fun d => 0x30 + d)) rest s.s1In,
      ps, rest, _, hrun, hps, hok, htape, rfl, rfl, rfl, hw, ?_⟩
    have hr := repr_reverse n.toNat (by omega)
    have hr' : (Nat.repr n.toNat).toList.reverse.map (fun ch => LcdTxn.data ch.toNat)
        = ((Nat.repr n.toNat).toList.reverse.map Char.toNat).map LcdTxn.data := by
      simp [List.map_map, Function.comp_def]
    rw [hr', hr, List.map_map]
    exact hw
  · intro h0
    subst h0
    rfl

/-- C6 at 123 (the characters `3`, `2`, `1` in that order), at 7 and at 0. -/
theorem write_int_digits_examples :
    (∃ s' ps rest tr, LCD_write_int 123 (initial regs0 [0, 0, 0] []) = some s' ∧
        ps.length = (Nat.digits 10 (123 : Int).toNat).length ∧
        (∀ p ∈ ps, Poll.ok notBusy p) ∧
        (initial regs0 [0, 0, 0] []).pdirIn = tapeOf ps ++ rest ∧ s'.pdirIn = rest ∧
        tr = (ps.zip ((Nat.digits 10 (123 : Int).toNat).map fun d => 0x30 + d)).flatMap
          (fun pc => readyTrace pc.1.readings ++ dataTail pc.2) ∧
        s'.log = [] ++ tr ∧
        lcdWrites regs0 tr
          = (Nat.digits 10 (123 : Int).toNat).map (fun d => LcdTxn.data (0x30 + d)) ∧
        lcdWrites regs0 tr
          = (Nat.repr (123 : Int).toNat).toList.reverse.map (fun ch => LcdTxn.data ch.toNat)) ∧
    (LCD_write_int 123 (initial regs0 [0, 0, 0] [])).map (fun s' => lcdWrites regs0 s'.log)
      = some [LcdTxn.data 0x33, LcdTxn.data 0x32, LcdTxn.data 0x31] ∧
    (LCD_write_int 7 (initial regs0 [0, 0, 0] [])).map (fun s' => lcdWrites regs0 s'.log)
      = some [LcdTxn.data 0x37] ∧
    LCD_write_int 0 (initial regs0 [0, 0, 0] []) = some (initial regs0 [0, 0, 0] []) :=
  ⟨(write_int_digits 123 (initial regs0 [0, 0, 0] [])).1 (by decide)
      (by simp [initial, notBusy, busy]),
    by decide, by decide,
    (write_int_digits 0 (initial regs0 [0, 0, 0] [])).2 rfl⟩

/-! ## Stores to `receiveFlag` in the traces -/

theorem flagWrites_append (t1 t2 : List Event) :
    flagWrites (t1 ++ t2) = flagWrites t1 ++ flagWrites t2 := by
  simp [flagWrites, List.filterMap_append]

theorem flagWrites_readyTrace (vs : List Nat) : flagWrites (readyTrace vs) = [] := by
  have h : flagWrites (vs.flatMap pulseRead) = [] := by
    induction vs with
    | nil => simp [flagWrites]
    | cons v vs ih =>
      rw [List.flatMap_cons, flagWrites_append, ih]
      simp [flagWrites, pulseRead]
  rw [readyTrace, flagWrites_append, flagWrites_append, h]
  simp [flagWrites]

theorem flagWrites_commandTrace (p : Poll) (c : Nat) : flagWrites (commandTrace p c) = [] := by
  rw [commandTrace, flagWrites_append, flagWrites_readyTrace]
  simp [flagWrites, commandTail]

theorem flagWrites_dataTrace (p : Poll) (c : Nat) : flagWrites (dataTrace p c) = [] := by
  rw [dataTrace, flagWrites_append, flagWrites_readyTrace]
  simp [flagWrites, dataTail]

theorem flagWrites_stringTrace (ps : List Poll) (cs : List Nat) :
    flagWrites (stringTrace ps cs) = [] := by
  induction ps generalizing cs with
  | nil => simp [stringTrace, flagWrites]
  | cons p ps ih =>
    cases cs with
    | nil => simp [stringTrace, flagWrites]
    | cons c cs =>
      have e : stringTrace (p :: ps) (c :: cs) = dataTrace p c ++ stringTrace ps cs := by
        simp [stringTrace]
      rw [e, flagWrites_append, flagWrites_dataTrace, ih]
      rfl

theorem flagWrites_renderTrace (p0 : Poll) (pl pb : List Poll) (p13 : Poll) (buf : List Nat) :
    flagWrites (renderTrace p0 pl pb p13 buf) = [] := by
  simp [renderTrace, flagWrites_append, flagWrites_commandTrace, flagWrites_stringTrace]

theorem flagWrites_txTrace (ps : List Poll) (cs : List Nat) :
    flagWrites (txTrace ps cs) = [] := by
  induction ps generalizing cs with
  | nil => simp [txTrace, flagWrites]
  | cons p ps ih =>
    cases cs with
    | nil => simp [txTrace, flagWrites]
    | cons c cs =>
      have e : txTrace (p :: ps) (c :: cs) = txByteTrace p c ++ txTrace ps cs := by
        simp [txTrace]
      have e2 : flagWrites (txByteTrace p c) = [] := by
        simp [flagWrites, txByteTrace, List.filterMap_append, List.filterMap_map]
      rw [e, flagWrites_append, e2, ih]
      rfl

/-! ## The dispatch loop -/

theorem main_iteration_run (s : State) (hflag : s.receiveFlag ≠ 0)
    (hbuf : s.incomingCommand.length = 4) (hlcd : 14 ≤ s.pdirIn.countP notBusy)
    (htx : 4 ≤ s.s1In.countP txReady) :
    ∃ (p0 : Poll) (pl pb : List Poll) (p13 : Poll) (rest : List Nat) (ps : List Poll)
      (rest' : List Nat),
      pl.length = 8 ∧ pb.length = 4 ∧ ps.length = 4 ∧
      LCD_cmd s = some (after s (renderTrace p0 pl pb p13 s.incomingCommand) rest s.s1In) ∧
      txData s.incomingCommand (after s (renderTrace p0 pl pb p13 s.incomingCommand) rest s.s1In)
        = some (after s (renderTrace p0 pl pb p13 s.incomingCommand ++
            txTrace ps s.incomingCommand) rest rest') ∧
      main_iteration s = some
        { after s (renderTrace p0 pl pb p13 s.incomingCommand ++ txTrace ps s.incomingCommand ++
            [Event.receiveFlag_write 0]) rest rest' with receiveFlag := 0 } := by
  obtain ⟨p0, pl, pb, p13, rest, hll, hbl, _, hrun⟩ := LCD_cmd_run s hbuf hlcd
  obtain ⟨ps, rest', hps, hok, htape, _⟩ := exists_polls txReady 4 s.s1In htx
  have hd : (s.incomingCommand.drop 0).take 4 = s.incomingCommand := by
    simp [List.take_of_length_le (Nat.le_of_eq hbuf)]
  have htxrun := txData_loop_after s.incomingCommand 4 0 ps s
    (renderTrace p0 pl pb p13 s.incomingCommand) rest' rest hps hok (by omega)
  rw [hd, ← htape] at htxrun
  have htxrun' : txData s.incomingCommand
      (after s (renderTrace p0 pl pb p13 s.incomingCommand) rest s.s1In)
      = some (after s (renderTrace p0 pl pb p13 s.incomingCommand ++
          txTrace ps s.incomingCommand) rest rest') := htxrun
  refine ⟨p0, pl, pb, p13, rest, ps, rest', hll, hbl, hps, hrun, htxrun', ?_⟩
  have e : (after s (renderTrace p0 pl pb p13 s.incomingCommand) rest s.s1In).incomingCommand
      = s.incomingCommand := rfl
  simp only [main_iteration, if_pos hflag, hrun, Option.some_bind, e, htxrun']
  simp [emit, after, replay, List.foldl_append, applyEvent]

/-- C4 (no double-service): with `receiveFlag` set, one iteration of the main
loop returns and its accesses are, in this order: those of the render
(`LCD_cmd`: the 14 LCD writes, no UART write), then those of the echo (`txData`
of `incomingCommand`: the four UART writes, no LCD transfer), then the store of
0 to `receiveFlag`, each once.  There is no store to `receiveFlag` among the
accesses of the render and of the echo, so the flag is still set during both
(it has its old value after each) and is cleared last.  With `receiveFlag`
clear, one iteration leaves the state, log included, as it is: no LCD
transfer, no UART write, no store. -/
theorem no_double_service (s : State) :
    (s.receiveFlag ≠ 0 → s.incomingCommand.length = 4 → 14 ≤ s.pdirIn.countP notBusy →
      4 ≤ s.s1In.countP txReady →
      ∃ s1 s2 s' tr1 tr2, LCD_cmd s = some s1 ∧ txData s1.incomingCommand s1 = some s2 ∧
        main_iteration s = some s' ∧
        s' = { s2 with receiveFlag := 0, log := s2.log ++ [Event.receiveFlag_write 0] } ∧
        s1.log = s.log ++ tr1 ∧ s2.log = s.log ++ tr1 ++ tr2 ∧
        s'.log = s.log ++ tr1 ++ tr2 ++ [Event.receiveFlag_write 0] ∧
        flagWrites tr1 = [] ∧ flagWrites tr2 = [] ∧
        flagWrites (tr1 ++ tr2 ++ [Event.receiveFlag_write 0]) = [0] ∧
        s1.regs = replay s.regs tr1 ∧
        lcdWrites s.regs tr1 =
          [LcdTxn.command 0x01] ++ ("Command:".toList.map fun ch => LcdTxn.data ch.toNat) ++
            s.incomingCommand.map (fun c => LcdTxn.data (c % 256)) ++ [LcdTxn.command 0xC0] ∧
        uartWrites tr1 = [] ∧
        lcdView s1.regs tr2 = [] ∧
        uartWrites tr2 = s.incomingCommand.map (fun c => c % 256) ∧
        lcdWrites s.regs (tr1 ++ tr2 ++ [Event.receiveFlag_write 0]) = lcdWrites s.regs tr1 ∧
        uartWrites (tr1 ++ tr2 ++ [Event.receiveFlag_write 0]) = uartWrites tr2 ∧
        s1.receiveFlag = s.receiveFlag ∧ s2.receiveFlag = s.receiveFlag ∧
        s'.receiveFlag = 0 ∧
        s1.incomingCommand = s.incomingCommand ∧ s2.incomingCommand = s.incomingCommand) ∧
    (s.receiveFlag = 0 → main_iteration s = some s) := by
  constructor
  · intro hflag hbuf hlcd htx
    obtain ⟨p0, pl, pb, p13, rest, ps, rest', hll, hbl, hps, h1, h2, h3⟩ :=
      main_iteration_run s hflag hbuf hlcd htx
    have hf1 := flagWrites_renderTrace p0 pl pb p13 s.incomingCommand
    have hf2 := flagWrites_txTrace ps s.incomingCommand
    have hu1 := uartWrites_renderTrace p0 pl pb p13 s.incomingCommand
    have hv2 := lcdView_txTrace (replay s.regs (renderTrace p0 pl pb p13 s.incomingCommand)) ps
      s.incomingCommand
    refine ⟨_, _, _, renderTrace p0 pl pb p13 s.incomingCommand, txTrace ps s.incomingCommand,
      h1, h2, h3, ?_, rfl, ?_, ?_, hf1, hf2, ?_, rfl, ?_, hu1, hv2.1,
      uartWrites_txTrace ps s.incomingCommand (by omega), ?_, ?_, rfl, rfl, rfl, rfl, rfl⟩
    · simp [after, replay_append, List.append_assoc]
      rfl
    · simp [after, List.append_assoc]
    · simp [after, List.append_assoc]
    · rw [flagWrites_append, flagWrites_append, hf1, hf2]; rfl
    · rw [lcdWrites_renderTrace s.regs p0 pl pb p13 s.incomingCommand hll (by omega)]
      rfl
    · rw [lcdWrites_append, lcdWrites_append]
      simp [lcdWrites, hv2.1, lcdView]
    · rw [uartWrites_append, uartWrites_append, hu1]
      simp [uartWrites]
  · intro hflag
    simp [main_iteration, hflag]

/-- C4 at a state holding the packet `ABCD` with the flag set, and at the
startup state with the flag clear. -/
theorem no_double_service_examples :
    (∃ s1 s2 s' tr1 tr2,
        LCD_cmd { initial regs0 (List.replicate 14 0) [0x80, 0x80, 0x80, 0x80] with
          incomingCommand := [0x41, 0x42, 0x43, 0x44], receiveFlag := 1 } = some s1 ∧
        txData s1.incomingCommand s1 = some s2 ∧
        main_iteration { initial regs0 (List.replicate 14 0) [0x80, 0x80, 0x80, 0x80] with
          incomingCommand := [0x41, 0x42, 0x43, 0x44], receiveFlag := 1 } = some s' ∧
        s' = { s2 with receiveFlag := 0, log := s2.log ++ [Event.receiveFlag_write 0] } ∧
        s1.log = [] ++ tr1 ∧ s2.log = [] ++ tr1 ++ tr2 ∧
        s'.log = [] ++ tr1 ++ tr2 ++ [Event.receiveFlag_write 0] ∧
        flagWrites tr1 = [] ∧ flagWrites tr2 = [] ∧
        flagWrites (tr1 ++ tr2 ++ [Event.receiveFlag_write 0]) = [0] ∧
        s1.regs = replay regs0 tr1 ∧
        lcdWrites regs0 tr1 =
          [LcdTxn.command 0x01] ++ ("Command:".toList.map fun ch => LcdTxn.data ch.toNat) ++
            [0x41, 0x42, 0x43, 0x44].map (fun c => LcdTxn.data (c % 256)) ++
            [LcdTxn.command 0xC0] ∧
        uartWrites tr1 = [] ∧
        lcdView s1.regs tr2 = [] ∧
        uartWrites tr2 = [0x41, 0x42, 0x43, 0x44].map (fun c => c % 256) ∧
        lcdWrites regs0 (tr1 ++ tr2 ++ [Event.receiveFlag_write 0]) = lcdWrites regs0 tr1 ∧
        uartWrites (tr1 ++ tr2 ++ [Event.receiveFlag_write 0]) = uartWrites tr2 ∧
        s1.receiveFlag = 1 ∧ s2.receiveFlag = 1 ∧
        s'.receiveFlag = 0 ∧
        s1.incomingCommand = [0x41, 0x42, 0x43, 0x44] ∧
        s2.incomingCommand = [0x41, 0x42, 0x43, 0x44]) ∧
    main_iteration (initial regs0 [] []) = some (initial regs0 [] []) :=
  ⟨(no_double_service { initial regs0 (List.replicate 14 0) [0x80, 0x80, 0x80, 0x80] with
      incomingCommand := [0x41, 0x42, 0x43, 0x44], receiveFlag := 1 }).1
      (by decide) rfl (by decide) (by decide),
    (no_double_service (initial regs0 [] [])).2 rfl⟩

/-- C1 (round-trip echo): from a state with `index = 0`, four calls of
`UART0_IRQHandler` delivering `b0`, `b1`, `b2`, `b3` followed by one iteration of
the main loop (the LCD reporting not-busy and the UART transmit-ready often
enough) return, and the writes to `UART0->D` made on the way are exactly
`b0`, `b1`, `b2`, `b3`, in that order. -/
theorem round_trip_echo (s : State) (b0 b1 b2 b3 : Nat)
    (h0 : b0 < 256) (h1 : b1 < 256) (h2 : b2 < 256) (h3 : b3 < 256)
    (hidx : s.index = 0) (hflag : s.receiveFlag = 0) (hlen : s.incomingCommand.length = 4)
    (hlcd : 14 ≤ s.pdirIn.countP notBusy) (htx : 4 ≤ s.s1In.countP txReady) :
    ∃ s' tr, (receiveBytes [b0, b1, b2, b3] s).bind main_iteration = some s' ∧
      s'.log = s.log ++ tr ∧ uartWrites tr = [b0, b1, b2, b3] ∧
      s'.receiveFlag = 0 ∧ s'.index = 0 ∧ s'.incomingCommand = [b0, b1, b2, b3] := by
  obtain ⟨s1, e1, e2, e3, e4, e5, _, ⟨tr0, e7, e7'⟩, e8, e9⟩ :=
    receiveBytes_spec [b0, b1, b2, b3] s hidx hlen
  have hbuf : s1.incomingCommand = [b0, b1, b2, b3] := by
    rw [e5 (by simp) (by simp)]
    simp [Nat.mod_eq_of_lt, h0, h1, h2, h3]
  have hf : s1.receiveFlag ≠ 0 := by rw [e3, hflag]; simp
  obtain ⟨p0, pl, pb, p13, rest, ps, rest', _, _, hps, _, _, hrun⟩ :=
    main_iteration_run s1 hf e4 (by rw [e8]; exact hlcd) (by rw [e9]; exact htx)
  refine ⟨{ after s1 (renderTrace p0 pl pb p13 s1.incomingCommand ++
      txTrace ps s1.incomingCommand ++ [Event.receiveFlag_write 0]) rest rest' with
      receiveFlag := 0 },
    tr0 ++ (renderTrace p0 pl pb p13 s1.incomingCommand ++
      txTrace ps s1.incomingCommand ++ [Event.receiveFlag_write 0]), ?_, ?_, ?_, rfl, ?_, hbuf⟩
  · rw [e1]; exact hrun
  · simp [after, e7, List.append_assoc]
  · rw [uartWrites_append, uartWrites_append, uartWrites_append, uartWrites_renderTrace,
      uartWrites_txTrace ps s1.incomingCommand (by omega), hbuf, e7']
    simp [uartWrites, Nat.mod_eq_of_lt, h0, h1, h2, h3]
  · simpa [after] using e2

/-- C1 at the packet `0x41,0x42,0x43,0x44`. -/
theorem round_trip_echo_ABCD :
    ∃ s' tr,
      (receiveBytes [0x41, 0x42, 0x43, 0x44]
        (initial regs0 (List.replicate 14 0) [0x80, 0x80, 0x80, 0x80])).bind main_iteration
        = some s' ∧
      s'.log = [] ++ tr ∧ uartWrites tr = [0x41, 0x42, 0x43, 0x44] ∧
      s'.receiveFlag = 0 ∧ s'.index = 0 ∧ s'.incomingCommand = [0x41, 0x42, 0x43, 0x44] :=
  round_trip_echo (initial regs0 (List.replicate 14 0) [0x80, 0x80, 0x80, 0x80])
    0x41 0x42 0x43 0x44 (by decide) (by decide) (by decide) (by decide) rfl rfl rfl
    (by decide) (by decide)

/-! ## The receive handler while a packet is waiting -/

theorem getElem?_set_of_ne (l : List Nat) (i j v : Nat) (h : j ≠ i) :
    (l.set i v)[j]? = l[j]? := by
  simp [List.getElem?_set, Ne.symm h]

/-- C11, as stated, fails: in the state reached from startup by the packet
`0x41,0x42,0x43,0x44`, where `receiveFlag` is set, a call of `UART0_IRQHandler`
with the byte `0x58` overwrites the first byte of `incomingCommand`. -/
theorem handoff_overwritten :
    receiveBytes [0x41, 0x42, 0x43, 0x44] (initial regs0 [] []) = some packetReady ∧
    packetReady.receiveFlag = 1 ∧
    packetReady.incomingCommand = [0x41, 0x42, 0x43, 0x44] ∧
    (UART0_IRQHandler 0x58 packetReady).map (fun s => (s.receiveFlag, s.incomingCommand))
      = some (1, [0x58, 0x42, 0x43, 0x44]) := by
  decide

/-- C11, amended: in every state in which `receiveFlag` is set (and
`0 <= index < 4`), for every received byte, `UART0_IRQHandler` returns having
stored the byte at `incomingCommand[index]`; the other three bytes of
`incomingCommand` are unchanged, so the packet is unchanged exactly when the
byte at `index` already had that value. -/
theorem handoff_one_byte (s : State) (d : Nat) (hflag : s.receiveFlag ≠ 0)
    (h0 : 0 ≤ s.index) (h4 : s.index < 4) (hlen : s.incomingCommand.length = 4) :
    ∃ s', UART0_IRQHandler d s = some s' ∧ s'.receiveFlag ≠ 0 ∧
      s'.incomingCommand.length = 4 ∧
      s'.incomingCommand[s.index.toNat]? = some (d % 256) ∧
      (∀ j : Nat, j ≠ s.index.toNat → s'.incomingCommand[j]? = s.incomingCommand[j]?) ∧
      (s'.incomingCommand = s.incomingCommand ↔
        s.incomingCommand[s.index.toNat]? = some (d % 256)) := by
  have hb : s.index.toNat < s.incomingCommand.length := by omega
  refine ⟨_, UART0_IRQHandler_eq d s h0 h4 hlen, ?_, by simp [hlen], ?_, ?_, ?_⟩
  · show (if s.index = 3 then (1 : Int) else s.receiveFlag) ≠ 0
    split
    · decide
    · exact hflag
  · show (s.incomingCommand.set s.index.toNat (d % 256))[s.index.toNat]? = some (d % 256)
    simp [List.getElem?_set, hb]
  · intro j hj
    exact getElem?_set_of_ne _ _ _ _ hj
  · show s.incomingCommand.set s.index.toNat (d % 256) = s.incomingCommand ↔ _
    constructor
    · intro h
      rw [← h]
      simp [List.getElem?_set, hb]
    · intro h
      apply List.ext_getElem?
      intro j
      by_cases hj : j = s.index.toNat
      · subst hj
        rw [h]
        simp [List.getElem?_set, hb]
      · exact getElem?_set_of_ne _ _ _ _ hj

/-- C11 amended, at the waiting packet `ABCD` and the byte `0x58`. -/
theorem handoff_one_byte_example :
    ∃ s', UART0_IRQHandler 0x58 packetReady = some s' ∧ s'.receiveFlag ≠ 0 ∧
      s'.incomingCommand.length = 4 ∧
      s'.incomingCommand[packetReady.index.toNat]? = some (0x58 % 256) ∧
      (∀ j : Nat, j ≠ packetReady.index.toNat →
        s'.incomingCommand[j]? = packetReady.incomingCommand[j]?) ∧
      (s'.incomingCommand = packetReady.incomingCommand ↔
        packetReady.incomingCommand[packetReady.index.toNat]? = some (0x58 % 256)) :=
  handoff_one_byte packetReady 0x58 (by decide) (by decide) (by decide) rfl

/-- C12 (receive overrun is silent): in a state with `receiveFlag` set, for
every byte, `UART0_IRQHandler` returns; it stores the byte at
`incomingCommand[index]` and advances `index` exactly as it does from the same
state with the flag clear; the flag stays set; the registers and the input
tapes are unchanged and the only accesses added to the log are the read of
`UART0->D` and, when the byte completes a packet, the store of 1 to
`receiveFlag`, so there is no UART write and no LCD transfer. -/
theorem overrun_silent (s : State) (d : Nat) (hflag : s.receiveFlag ≠ 0)
    (h0 : 0 ≤ s.index) (h4 : s.index < 4) (hlen : s.incomingCommand.length = 4) :
    ∃ s' c', UART0_IRQHandler d s = some s' ∧
      UART0_IRQHandler d { s with receiveFlag := 0 } = some c' ∧
      s'.incomingCommand = c'.incomingCommand ∧ s'.index = c'.index ∧
      s'.incomingCommand = s.incomingCommand.set s.index.toNat (d % 256) ∧
      s'.index = (s.index + 1) % 4 ∧
      s'.receiveFlag ≠ 0 ∧
      s'.regs = s.regs ∧ s'.pdirIn = s.pdirIn ∧ s'.s1In = s.s1In ∧
      s'.log = s.log ++ (Event.UART0_D_read d ::
        (if s.index = 3 then [Event.receiveFlag_write 1] else [])) ∧
      s'.log = c'.log ∧
      uartWrites (Event.UART0_D_read d ::
        (if s.index = 3 then [Event.receiveFlag_write 1] else [])) = [] ∧
      lcdView s.regs (Event.UART0_D_read d ::
        (if s.index = 3 then [Event.receiveFlag_write 1] else [])) = [] := by
  refine ⟨_, _, UART0_IRQHandler_eq d s h0 h4 hlen,
    UART0_IRQHandler_eq d { s with receiveFlag := 0 } h0 h4 hlen, rfl, rfl, rfl, ?_, ?_, rfl,
    rfl, rfl, rfl, rfl, ?_, ?_⟩
  · show (if s.index = 3 then (0 : Int) else s.index + 1) = (s.index + 1) % 4
    split <;> omega
  · show (if s.index = 3 then (1 : Int) else s.receiveFlag) ≠ 0
    split
    · decide
    · exact hflag
  · split <;> rfl
  · split <;> rfl

/-- C12 at the waiting packet `ABCD` and the byte `0x58`. -/
theorem overrun_silent_example :
    ∃ s' c', UART0_IRQHandler 0x58 packetReady = some s' ∧
      UART0_IRQHandler 0x58 { packetReady with receiveFlag := 0 } = some c' ∧
      s'.incomingCommand = c'.incomingCommand ∧ s'.index = c'.index ∧
      s'.incomingCommand = packetReady.incomingCommand.set packetReady.index.toNat (0x58 % 256) ∧
      s'.index = (packetReady.index + 1) % 4 ∧
      s'.receiveFlag ≠ 0 ∧
      s'.regs = packetReady.regs ∧ s'.pdirIn = packetReady.pdirIn ∧
      s'.s1In = packetReady.s1In ∧
      s'.log = packetReady.log ++ (Event.UART0_D_read 0x58 ::
        (if packetReady.index = 3 then [Event.receiveFlag_write 1] else [])) ∧
      s'.log = c'.log ∧
      uartWrites (Event.UART0_D_read 0x58 ::
        (if packetReady.index = 3 then [Event.receiveFlag_write 1] else [])) = [] ∧
      lcdView packetReady.regs (Event.UART0_D_read 0x58 ::
        (if packetReady.index = 3 then [Event.receiveFlag_write 1] else [])) = [] :=
  overrun_silent packetReady 0x58 (by decide) (by decide) (by decide) rfl

/-- C16 (receive handler frame): in every state with `0 <= index < 4`, for every
byte, `UART0_IRQHandler` returns; `incomingCommand` changes at position `index`
only, `index` becomes `(index + 1) mod 4`, `receiveFlag` is never changed from
set to clear and is changed only when the old `index` was 3 (then it is set);
registers and input tapes are unchanged. -/
theorem handler_frame (s : State) (d : Nat) (h0 : 0 ≤ s.index) (h4 : s.index < 4)
    (hlen : s.incomingCommand.length = 4) :
    ∃ s', UART0_IRQHandler d s = some s' ∧
      (∀ j : Nat, j ≠ s.index.toNat → s'.incomingCommand[j]? = s.incomingCommand[j]?) ∧
      s'.incomingCommand.length = s.incomingCommand.length ∧
      s'.index = (s.index + 1) % 4 ∧
      (s.receiveFlag ≠ 0 → s'.receiveFlag ≠ 0) ∧
      (s'.receiveFlag ≠ s.receiveFlag → s.index = 3 ∧ s'.receiveFlag = 1) ∧
      (s.index ≠ 3 → s'.receiveFlag = s.receiveFlag) ∧
      s'.regs = s.regs ∧ s'.pdirIn = s.pdirIn ∧ s'.s1In = s.s1In := by
  refine ⟨_, UART0_IRQHandler_eq d s h0 h4 hlen, fun j hj => getElem?_set_of_ne _ _ _ _ hj,
    by simp, ?_, ?_, ?_, ?_, rfl, rfl, rfl⟩
  · show (if s.index = 3 then (0 : Int) else s.index + 1) = (s.index + 1) % 4
    split <;> omega
  · intro hflag
    show (if s.index = 3 then (1 : Int) else s.receiveFlag) ≠ 0
    split
    · decide
    · exact hflag
  · show (if s.index = 3 then (1 : Int) else s.receiveFlag) ≠ s.receiveFlag →
      s.index = 3 ∧ (if s.index = 3 then (1 : Int) else s.receiveFlag) = 1
    split
    · intro _; exact ⟨by assumption, rfl⟩
    · intro h; exact absurd rfl h
  · intro h3
    show (if s.index = 3 then (1 : Int) else s.receiveFlag) = s.receiveFlag
    rw [if_neg h3]

/-- C16 at the startup state and the byte `0x41`. -/
theorem handler_frame_example :
    ∃ s', UART0_IRQHandler 0x41 (initial regs0 [] []) = some s' ∧
      (∀ j : Nat, j ≠ (initial regs0 [] []).index.toNat →
        s'.incomingCommand[j]? = (initial regs0 [] []).incomingCommand[j]?) ∧
      s'.incomingCommand.length = (initial regs0 [] []).incomingCommand.length ∧
      s'.index = ((initial regs0 [] []).index + 1) % 4 ∧
      ((initial regs0 [] []).receiveFlag ≠ 0 → s'.receiveFlag ≠ 0) ∧
      (s'.receiveFlag ≠ (initial regs0 [] []).receiveFlag →
        (initial regs0 [] []).index = 3 ∧ s'.receiveFlag = 1) ∧
      ((initial regs0 [] []).index ≠ 3 → s'.receiveFlag = (initial regs0 [] []).receiveFlag) ∧
      s'.regs = regs0 ∧ s'.pdirIn = [] ∧ s'.s1In = [] :=
  handler_frame (initial regs0 [] []) 0x41 (by decide) (by decide) rfl

/-! ## Command-send and data-send side by side -/

theorem latch_data_eq_command_or (x : Nat) :
    ((x ||| RS) &&& (0xFFFFFFFF ^^^ RW) ||| EN) &&& (0xFFFFFFFF ^^^ EN)
      = ((x &&& (0xFFFFFFFF ^^^ (RS ||| RW)) ||| EN) &&& (0xFFFFFFFF ^^^ EN)) ||| RS := by
  have e1 : (0xFFFFFFFF : Nat) = 2 ^ 32 - 1 := by norm_num
  have e2 : RS = 2 ^ 12 := by norm_num [RS]
  have e3 : RW = 2 ^ 4 := by norm_num [RW]
  have e4 : EN = 2 ^ 5 := by norm_num [EN]
  rw [e1, e2, e3, e4]
  apply Nat.eq_of_testBit_eq
  intro i
  simp only [Nat.testBit_and, Nat.testBit_or, Nat.testBit_xor, Nat.testBit_two_pow_sub_one,
    Nat.testBit_two_pow]
  by_cases h12 : 12 = i <;> by_cases h4 : 4 = i <;> by_cases h5 : 5 = i <;>
    by_cases h32 : i < 32 <;> simp [h12, h4, h5, h32] <;> omega

theorem tails_regs (r : Regs) (b : Nat) :
    replay r (dataTail b)
      = { replay r (commandTail b) with
          ptaPDOR := (replay r (commandTail b)).ptaPDOR ||| RS } ∧
    pinHigh (replay r (commandTail b)).ptaPDOR RS = false ∧
    pinHigh (replay r (dataTail b)).ptaPDOR RS = true ∧
    pinHigh (replay r (commandTail b)).ptaPDOR RW = false ∧
    pinHigh (replay r (dataTail b)).ptaPDOR RW = false ∧
    pinHigh (replay r (commandTail b)).ptaPDOR EN = false ∧
    pinHigh (replay r (dataTail b)).ptaPDOR EN = false ∧
    (replay r (commandTail b)).ptdPDOR = b % 256 ∧
    (replay r (dataTail b)).ptdPDOR = b % 256 := by
  refine ⟨?_, ?_, ?_, ?_, ?_, ?_, ?_, ?_, ?_⟩
  · simp [replay, applyEvent, dataTail, commandTail, latch_data_eq_command_or]
  all_goals
    simp [replay, applyEvent, dataTail, commandTail, pinHigh_or, pinHigh_and, pinHigh_zero,
      mask_table, pin_table]

/-- C13 (command-send-immediate is command-send without the ready-wait):
`LCD_command(c)` does exactly what `LCD_ready()` followed by
`LCD_command_noWait(c)` does, in every state: the same accesses in the same
order and the same final state (and neither returns when the ready-wait does
not).  `LCD_command_noWait(c)` itself makes five accesses and no read of the
LCD bus: it clears RS and RW, writes `c` to the data bus, raises EN once and
lowers it once; the controller latches the command `c`. -/
theorem command_noWait_refinement (c : Nat) (s : State) :
    LCD_command c s = (LCD_ready s).map (LCD_command_noWait c) ∧
    (LCD_command_noWait c s).log = s.log ++
      [Event.PTA_PCOR (RS ||| RW), Event.PTD_PDOR (c % 256), Event.PTA_PSOR EN, Event.delayMs 0,
        Event.PTA_PCOR EN] ∧
    (LCD_command_noWait c s).regs = replay s.regs
      [Event.PTA_PCOR (RS ||| RW), Event.PTD_PDOR (c % 256), Event.PTA_PSOR EN, Event.delayMs 0,
        Event.PTA_PCOR EN] ∧
    (LCD_command_noWait c s).pdirIn = s.pdirIn ∧
    (LCD_command_noWait c s).s1In = s.s1In ∧
    (LCD_command_noWait c s).vars = s.vars ∧
    pinHigh (LCD_command_noWait c s).regs.ptaPDOR RS = false ∧
    pinHigh (LCD_command_noWait c s).regs.ptaPDOR RW = false ∧
    pinHigh (LCD_command_noWait c s).regs.ptaPDOR EN = false ∧
    (LCD_command_noWait c s).regs.ptdPDOR = c % 256 ∧
    lcdView s.regs
      [Event.PTA_PCOR (RS ||| RW), Event.PTD_PDOR (c % 256), Event.PTA_PSOR EN, Event.delayMs 0,
        Event.PTA_PCOR EN] = [LcdTxn.command (c % 256)] := by
  have hrun := LCD_command_noWait_after c s [] s.pdirIn s.s1In
  rw [after_nil] at hrun
  obtain ⟨_, a1, _, a2, _, a3, _, a4, _⟩ := tails_regs s.regs c
  refine ⟨rfl, ?_, ?_, ?_, ?_, ?_, ?_, ?_, ?_, ?_, commandTail_view s.regs c⟩
  · rw [hrun]; rfl
  · rw [hrun]; rfl
  · rw [hrun]; rfl
  · rw [hrun]; rfl
  · rw [hrun]; rfl
  · rw [hrun]; exact a1
  · rw [hrun]; exact a2
  · rw [hrun]; exact a3
  · rw [hrun]; exact a4

/-- C14 (data-send differs from command-send only in register-select): from the
same state and the same LCD status readings, `LCD_data(b)` and `LCD_command(b)`
both return after the same ready-wait; each then writes `b` to the data bus and
makes one enable pulse at which RW is low, so the controller latches `b` once,
as data and as a command respectively; the final registers are the same except
that the RS pin is high after `LCD_data` and low after `LCD_command`. -/
theorem data_vs_command (b : Nat) (s : State) (p : Poll) (rest : List Nat)
    (hp : p.ok notBusy) (htape : s.pdirIn = p.readings ++ rest) :
    ∃ sd sc, LCD_data b s = some sd ∧ LCD_command b s = some sc ∧
      sd.log = s.log ++ (readyTrace p.readings ++
        [Event.PTA_PSOR RS, Event.PTA_PCOR RW, Event.PTD_PDOR (b % 256), Event.PTA_PSOR EN,
          Event.delayMs 0, Event.PTA_PCOR EN]) ∧
      sc.log = s.log ++ (readyTrace p.readings ++
        [Event.PTA_PCOR (RS ||| RW), Event.PTD_PDOR (b % 256), Event.PTA_PSOR EN,
          Event.delayMs 0, Event.PTA_PCOR EN]) ∧
      lcdView (replay s.regs (readyTrace p.readings))
        [Event.PTA_PSOR RS, Event.PTA_PCOR RW, Event.PTD_PDOR (b % 256), Event.PTA_PSOR EN,
          Event.delayMs 0, Event.PTA_PCOR EN] = [LcdTxn.data (b % 256)] ∧
      lcdView (replay s.regs (readyTrace p.readings))
        [Event.PTA_PCOR (RS ||| RW), Event.PTD_PDOR (b % 256), Event.PTA_PSOR EN,
          Event.delayMs 0, Event.PTA_PCOR EN] = [LcdTxn.command (b % 256)] ∧
      sd.regs = { sc.regs with ptaPDOR := sc.regs.ptaPDOR ||| RS } ∧
      pinHigh sc.regs.ptaPDOR RS = false ∧ pinHigh sd.regs.ptaPDOR RS = true ∧
      pinHigh sc.regs.ptaPDOR RW = false ∧ pinHigh sd.regs.ptaPDOR RW = false ∧
      pinHigh sc.regs.ptaPDOR EN = false ∧ pinHigh sd.regs.ptaPDOR EN = false ∧
      sc.regs.ptdPDOR = b % 256 ∧ sd.regs.ptdPDOR = b % 256 ∧
      sd.pdirIn = rest ∧ sc.pdirIn = rest ∧ sd.s1In = sc.s1In ∧ sd.vars = sc.vars := by
  have hd := LCD_data_after b s [] s.s1In p rest hp
  have hc := LCD_command_after b s [] s.s1In p rest hp
  rw [after_self s _ _ htape rfl] at hd hc
  simp only [List.nil_append] at hd hc
  obtain ⟨a0, a1, a2, a3, a4, a5, a6, a7, a8⟩ := tails_regs (replay s.regs (readyTrace p.readings)) b
  refine ⟨_, _, hd, hc, rfl, rfl, dataTail_view _ b, commandTail_view _ b, ?_, ?_, ?_, ?_, ?_,
    ?_, ?_, ?_, ?_, rfl, rfl, rfl, rfl⟩
  · simpa [after, dataTrace, commandTrace, replay_append] using a0
  · simpa [after, commandTrace, replay_append] using a1
  · simpa [after, dataTrace, replay_append] using a2
  · simpa [after, commandTrace, replay_append] using a3
  · simpa [after, dataTrace, replay_append] using a4
  · simpa [after, commandTrace, replay_append] using a5
  · simpa [after, dataTrace, replay_append] using a6
  · simpa [after, commandTrace, replay_append] using a7
  · simpa [after, dataTrace, replay_append] using a8

/-- C14 at the byte `0x41`, with one busy reading before the LCD is ready. -/
theorem data_vs_command_example :
    ∃ sd sc, LCD_data 0x41 (initial regs0 [0x80, 0, 7] []) = some sd ∧
      LCD_command 0x41 (initial regs0 [0x80, 0, 7] []) = some sc ∧
      sd.log = [] ++ (readyTrace [0x80, 0] ++
        [Event.PTA_PSOR RS, Event.PTA_PCOR RW, Event.PTD_PDOR (0x41 % 256), Event.PTA_PSOR EN,
          Event.delayMs 0, Event.PTA_PCOR EN]) ∧
      sc.log = [] ++ (readyTrace [0x80, 0] ++
        [Event.PTA_PCOR (RS ||| RW), Event.PTD_PDOR (0x41 % 256), Event.PTA_PSOR EN,
          Event.delayMs 0, Event.PTA_PCOR EN]) ∧
      lcdView (replay regs0 (readyTrace [0x80, 0]))
        [Event.PTA_PSOR RS, Event.PTA_PCOR RW, Event.PTD_PDOR (0x41 % 256), Event.PTA_PSOR EN,
          Event.delayMs 0, Event.PTA_PCOR EN] = [LcdTxn.data (0x41 % 256)] ∧
      lcdView (replay regs0 (readyTrace [0x80, 0]))
        [Event.PTA_PCOR (RS ||| RW), Event.PTD_PDOR (0x41 % 256), Event.PTA_PSOR EN,
          Event.delayMs 0, Event.PTA_PCOR EN] = [LcdTxn.command (0x41 % 256)] ∧
      sd.regs = { sc.regs with ptaPDOR := sc.regs.ptaPDOR ||| RS } ∧
      pinHigh sc.regs.ptaPDOR RS = false ∧ pinHigh sd.regs.ptaPDOR RS = true ∧
      pinHigh sc.regs.ptaPDOR RW = false ∧ pinHigh sd.regs.ptaPDOR RW = false ∧
      pinHigh sc.regs.ptaPDOR EN = false ∧ pinHigh sd.regs.ptaPDOR EN = false ∧
      sc.regs.ptdPDOR = 0x41 % 256 ∧ sd.regs.ptdPDOR = 0x41 % 256 ∧
      sd.pdirIn = [7] ∧ sc.pdirIn = [7] ∧ sd.s1In = sc.s1In ∧ sd.vars = sc.vars :=
  data_vs_command 0x41 (initial regs0 [0x80, 0, 7] []) ⟨[0x80], 0⟩ [7]
    ⟨by decide, by decide⟩ rfl

/-! ## Frame of the dispatch loop and termination of the integer writer -/

/-- C17 (dispatch frame): one iteration of the main loop leaves `incomingCommand`
and `index` unchanged and ends with `receiveFlag = 0`; its two calls, `LCD_cmd`
and `txData`, leave all three variables unchanged, so the only variable the
foreground writes is `receiveFlag`, and only with 0.  Given enough not-busy and
transmit-ready readings the iteration does return. -/
theorem dispatch_frame (s : State) :
    (∀ s', main_iteration s = some s' →
      s'.incomingCommand = s.incomingCommand ∧ s'.index = s.index ∧ s'.receiveFlag = 0) ∧
    (∀ s1, LCD_cmd s = some s1 → s1.vars = s.vars) ∧
    (∀ data s2, txData data s = some s2 → s2.vars = s.vars) ∧
    (s.incomingCommand.length = 4 → 14 ≤ s.pdirIn.countP notBusy →
      4 ≤ s.s1In.countP txReady →
      ∃ s', main_iteration s = some s' ∧
        s'.incomingCommand = s.incomingCommand ∧ s'.index = s.index ∧ s'.receiveFlag = 0) := by
  have hframe : ∀ s', main_iteration s = some s' →
      s'.incomingCommand = s.incomingCommand ∧ s'.index = s.index ∧ s'.receiveFlag = 0 := by
    intro s' h
    obtain ⟨e1, e2⟩ := main_iteration_frame s s' h
    refine ⟨e2, e1, ?_⟩
    simp only [main_iteration] at h
    split at h
    · simp only [Option.bind_eq_some] at h
      obtain ⟨s1, _, s2, _, h3⟩ := h
      cases h3
      rfl
    · rename_i hz
      cases h
      simpa using hz
  refine ⟨hframe, fun s1 h => LCD_cmd_vars s s1 h, fun data s2 h => txData_vars data s s2 h, ?_⟩
  intro hbuf hlcd htx
  by_cases hflag : s.receiveFlag = 0
  · have hrun : main_iteration s = some s := by simp [main_iteration, hflag]
    exact ⟨s, hrun, hframe s hrun⟩
  · obtain ⟨p0, pl, pb, p13, rest, ps, rest', _, _, _, _, _, hrun⟩ :=
      main_iteration_run s hflag hbuf hlcd htx
    exact ⟨_, hrun, hframe _ hrun⟩

/-- C17 at the waiting packet `ABCD`, with LCD and UART ready, and at the
startup state, where the flag is clear. -/
theorem dispatch_frame_example :
    (∃ s', main_iteration { packetReady with
        pdirIn := List.replicate 14 0, s1In := [0x80, 0x80, 0x80, 0x80] } = some s' ∧
      s'.incomingCommand = [0x41, 0x42, 0x43, 0x44] ∧ s'.index = 0 ∧ s'.receiveFlag = 0) ∧
    ((initial regs0 [] []).incomingCommand = [0, 0, 0, 0] ∧ (initial regs0 [] []).index = 0 ∧
      (initial regs0 [] []).receiveFlag = 0) :=
  ⟨(dispatch_frame { packetReady with
      pdirIn := List.replicate 14 0, s1In := [0x80, 0x80, 0x80, 0x80] }).2.2.2
      rfl (by decide) (by decide),
    (dispatch_frame (initial regs0 [] [])).1 (initial regs0 [] []) (by decide)⟩

/-- C18 (termination of the integer writer): `LCD_write_int(n)` returns for
every `n`, given one not-busy reading of the LCD bus per character: for every
`n <= 0`, negative values included, it returns at once with no access at all
(0 data-sends); for every `n > 0` it returns after exactly as many data-sends
as `n` has decimal digits, and no command. -/
theorem write_int_terminates (n : Int) (s : State) :
    (n ≤ 0 → LCD_write_int n s = some s) ∧
    (0 < n → (Nat.digits 10 n.toNat).length ≤ s.pdirIn.countP notBusy →
      ∃ s' tr, LCD_write_int n s = some s' ∧ s'.log = s.log ++ tr ∧
        (lcdWrites s.regs tr).length = (Nat.digits 10 n.toNat).length ∧
        (lcdWrites s.regs tr).length = (Nat.repr n.toNat).length ∧
        (∀ x ∈ lcdWrites s.regs tr, ∃ b, x = LcdTxn.data b) ∧
        s'.vars = s.vars) := by
  constructor
  · intro hn
    have h0 : n.toNat = 0 := Int.toNat_eq_zero.mpr hn
    have hng : ¬ n > 0 := by omega
    simp [LCD_write_int, h0, LCD_write_int_loop, hng]
  · intro hpos hcount
    obtain ⟨ps, rest, hps, hok, htape, _⟩ :=
      exists_polls notBusy (Nat.digits 10 n.toNat).length s.pdirIn hcount
    have hn : ((n.toNat : Nat) : Int) = n := Int.toNat_of_nonneg (by omega)
    have hrun := LCD_write_int_loop_after n.toNat n.toNat ps s [] rest s.s1In (Nat.le_refl _)
      hps hok
    rw [after_self s _ _ htape rfl, hn] at hrun
    simp only [List.nil_append] at hrun
    have hw := lcdWrites_stringTrace ps s.regs
      ((Nat.digits 10 n.toNat).map fun d => 0x30 + d) (by simp [hps])
    refine ⟨after s (stringTrace ps ((Nat.digits 10 n.toNat).map fun d => 0x30 + d)) rest s.s1In,
      _, hrun, rfl, ?_, ?_, ?_, rfl⟩
    · rw [hw]; simp
    · have hr := congrArg List.length (repr_reverse n.toNat (by omega))
      simp only [List.length_map, List.length_reverse] at hr
      have hs : (Nat.repr n.toNat).length = (Nat.repr n.toNat).toList.length := rfl
      rw [hw, hs, hr]; simp
    · intro x hx
      rw [hw] at hx
      simp only [List.mem_map] at hx
      obtain ⟨c, _, rfl⟩ := hx
      exact ⟨_, rfl⟩

/-- C18 at `-5` (no access at all) and at `123` (three data-sends). -/
theorem write_int_terminates_examples :
    LCD_write_int (-5) (initial regs0 [0, 0, 0] []) = some (initial regs0 [0, 0, 0] []) ∧
    (∃ s' tr, LCD_write_int 123 (initial regs0 [0, 0, 0] []) = some s' ∧
        s'.log = [] ++ tr ∧
        (lcdWrites regs0 tr).length = (Nat.digits 10 (123 : Int).toNat).length ∧
        (lcdWrites regs0 tr).length = (Nat.repr (123 : Int).toNat).length ∧
        (∀ x ∈ lcdWrites regs0 tr, ∃ b, x = LcdTxn.data b) ∧
        s'.vars = (initial regs0 [0, 0, 0] []).vars) ∧
    (LCD_write_int 123 (initial regs0 [0, 0, 0] [])).map
        (fun s' => (lcdWrites regs0 s'.log).length) = some 3 ∧
    (LCD_write_int (-2147483648) (initial regs0 [] [])).map (fun s' => s'.log) = some [] :=
  ⟨(write_int_terminates (-5) (initial regs0 [0, 0, 0] [])).1 (by decide),
    (write_int_terminates 123 (initial regs0 [0, 0, 0] [])).2 (by decide)
      (by simp [initial, notBusy, busy]),
    by decide, by decide⟩

end ATP
